import Mathlib

/-!
# Verification of the KB-Tracker game-session reconstruction pipeline

Shallow embedding of the core components of the KB-Tracker repository:

* `diffSnapshots` (src `stateDiffer.ts`) — the snapshot differencer,
* `GameRecorder.ingest` / `GameRecorder.finalize` (src `gameRecorder.ts`) —
  the per-session recorder state machine,
* `parseFrame` (src `socketParser.ts`) — the Socket.IO text-frame parser,

together with theorems settling the specification claims about them.

Modelling conventions:

* TypeScript objects become structures; only the fields the embedded
  functions read are carried.
* `Record<string, T>` becomes an association list `List (String × T)`
  in insertion order (JavaScript objects preserve string-key insertion
  order and cannot hold duplicate keys, so key-`Nodup` hypotheses are
  used where the iteration order of `Object.keys` matters).
* Fields that the code reads through `?.`, `?? x`, or truthiness checks
  are carried as `Option` so those guards can be embedded faithfully.
* The wall-clock values produced by `new Date().toISOString()` are passed
  in as an explicit `now : String` argument.
* The completion callback `onComplete` is modelled by returning the
  emitted `GameRecord` (if any) from `ingest`.
* `parseLogEntries` (`logParser.ts`, a keyword-heuristic over chat log
  entries) is passed to `ingest` as an explicit function argument `plog`;
  the recorder only concatenates its output, and every theorem below is
  universally quantified over it.  Chat entries themselves are never
  inspected by the recorder, so `IChatEntry.message` is modelled by its
  raw text.
-/

/-- `{ set, number }` pair identifying a card printing (`cardUtils.ts`). -/
structure SetId where
  set : String
  number : Nat
deriving DecidableEq, Repr

/-- Card instance summary (`types.ts` `CardSummary`); only the fields read by
the differ and recorder are carried.  `id`/`name` are `Option` because the
code guards them with `??`. -/
structure CardSummary where
  uuid : String
  id : Option String := none
  name : Option String := none
  setId : Option SetId := none
  hp : Option Nat := none
  damage : Option Nat := none
  aspects : Option (List String) := none
deriving DecidableEq, Repr

/-- The zone containers of one player (`types.ts` `CardPiles`). -/
structure CardPiles where
  hand : List CardSummary := []
  resources : List CardSummary := []
  groundArena : List CardSummary := []
  spaceArena : List CardSummary := []
  discard : List CardSummary := []
  credits : Option (List CardSummary) := none
deriving DecidableEq, Repr

/-- Per-player state in a snapshot (`types.ts` `PlayerStateSummary`).
`cardPiles`, `leader`, `base` and `numCardsInDeck` are `Option` because the
code defends against their absence (`!p0.cardPiles`, `p.leader?.id`,
`numCardsInDeck ?? 0`). -/
structure PlayerStateSummary where
  id : String
  name : String
  cardPiles : Option CardPiles := none
  leader : Option CardSummary := none
  base : Option CardSummary := none
  numCardsInDeck : Option Nat := none
  availableResources : Nat := 0
  hasInitiative : Bool := false
deriving DecidableEq, Repr

/-- `types.ts` `PhaseName = 'setup' | 'action' | 'regroup'`. -/
inductive PhaseName where
  | setup
  | action
  | regroup
deriving DecidableEq, Repr

/-- `types.ts` `SwuGameFormat = 'premier' | 'nextSetPreview' | 'open'`
(`openFmt` stands for the TS literal `'open'`, a Lean keyword). -/
inductive SwuGameFormat where
  | premier
  | nextSetPreview
  | openFmt
deriving DecidableEq, Repr

/-- A game-log entry (`types.ts` `IChatEntry`).  The recorder never inspects
`message` (it only buffers entries and hands them to the log parser), so the
union-typed message is modelled by its raw text. -/
structure IChatEntry where
  date : String
  message : String
deriving DecidableEq, Repr

/-- A full game-state snapshot (`types.ts` `IGameState`); unused fields
(`manualMode`, `owner`, `messageOffset`, …) are omitted.  `players` is the
`Record<string, PlayerStateSummary>` in key-insertion order.  `playerUpdate`
is `Option` because the code tests its truthiness. -/
structure IGameState where
  id : String
  playerUpdate : Option String := none
  players : List (String × PlayerStateSummary)
  phase : PhaseName
  newMessages : List IChatEntry := []
  gameMode : SwuGameFormat := .premier
  winners : List String := []
deriving DecidableEq, Repr

/-- `types.ts` `GameCardMetric`. -/
inductive GameCardMetric where
  | played
  | resourced
  | activated
  | drawn
  | discarded
deriving DecidableEq, Repr

/-- One inferred card event (`types.ts` `CardEvent`). -/
structure CardEvent where
  gameId : String
  roundNumber : Nat
  playerId : String
  playerName : String
  cardId : String
  cardName : String
  cardSetId : Option SetId := none
  metric : GameCardMetric
  count : Nat
deriving DecidableEq, Repr

/-- `types.ts` `GamePlayer` — per-player header data of a finished record. -/
structure GamePlayer where
  id : String
  name : String
  leaderId : String
  leaderName : String
  leaderSetId : Option SetId := none
  baseId : String
  baseName : String
  baseSetId : Option SetId := none
  baseAspects : Option (List String) := none
  deckSize : Option Nat := none
deriving DecidableEq, Repr

/-- `types.ts` `PlayerSnapshot` — slim per-player state captured per round. -/
structure PlayerSnapshot where
  name : String
  hasInitiative : Bool
  availableResources : Nat
  totalResources : Nat
  credits : Nat
  numCardsInDeck : Option Nat
  base : Option CardSummary
  leader : Option CardSummary
  groundArena : List CardSummary
  spaceArena : List CardSummary
  hand : List CardSummary
  discard : List CardSummary
deriving DecidableEq, Repr

/-- `types.ts` `BaseHpChange`. -/
structure BaseHpChange where
  youHp : Nat
  oppHp : Nat
deriving DecidableEq, Repr

/-- `types.ts` `RoundSnapshot`. -/
structure RoundSnapshot where
  round : Nat
  phase : PhaseName
  capturedAt : String
  players : PlayerSnapshot × PlayerSnapshot
  logEntries : List IChatEntry
  baseHpChanges : List BaseHpChange
deriving DecidableEq, Repr

/-- The terminal output (`types.ts` `GameRecord`). -/
structure GameRecord where
  gameId : String
  startedAt : String
  completedAt : String
  format : SwuGameFormat
  isLimitedFormat : Bool
  players : GamePlayer × GamePlayer
  winner : Option String
  rounds : Nat
  cardEvents : List CardEvent
  rawLog : List IChatEntry
  snapshots : List RoundSnapshot
deriving DecidableEq, Repr

/-- `stateDiffer.ts` `DiffContext`. -/
structure DiffContext where
  gameId : String
  roundNumber : Nat
  localPlayerId : Option String := none
deriving DecidableEq, Repr

/-- JavaScript truthiness of a `string | null | undefined` value:
`null`/`undefined` and the empty string are falsy. -/
def jsTruthy : Option String → Bool
  | none => false
  | some s => s ≠ ""

/-- Indexing `players[k]` on the key-ordered association list. -/
def plook (ps : List (String × PlayerStateSummary)) (k : String) :
    Option PlayerStateSummary :=
  (ps.find? (fun kp => kp.1 = k)).map (fun kp => kp.2)

/-- `uuidSet` (`stateDiffer.ts`): the uuids of a pile; only membership is
ever queried on the JS `Set`, so the list of uuids is an exact model. -/
def uuids (cards : List CardSummary) : List String :=
  cards.map (fun c => c.uuid)

/-- One `Map.set` step: JS `Map.set` overwrites the value at an existing key
in place (keeping first-insertion order) and appends otherwise. -/
def mapSet (m : List (String × CardSummary)) (c : CardSummary) :
    List (String × CardSummary) :=
  if m.any (fun kv => kv.1 = c.uuid) then
    m.map (fun kv => if kv.1 = c.uuid then (c.uuid, c) else kv)
  else
    m ++ [(c.uuid, c)]

/-- `byUuid` (`stateDiffer.ts`): builds the uuid-keyed `Map` of a pile. -/
def byUuid (cards : List CardSummary) : List (String × CardSummary) :=
  cards.foldl mapSet []

/-- `cardLabel` (`stateDiffer.ts`): `c.name ?? c.id ?? c.uuid`. -/
def cardLabel (c : CardSummary) : String :=
  c.name.getD (c.id.getD c.uuid)

/-- `card.id ?? card.uuid`, used for the `cardId` field of every event. -/
def cardIdOf (c : CardSummary) : String :=
  c.id.getD c.uuid

/-- `allArena` (`stateDiffer.ts`): ground arena followed by space arena. -/
def allArena (p : CardPiles) : List CardSummary :=
  p.groundArena ++ p.spaceArena

/-- Constructs one diff event record (`stateDiffer.ts` `events.push`
payloads): `cardId := card.id ?? card.uuid`, `cardName := cardLabel card`. -/
def diffMkEv (ctx : DiffContext) (playerId playerName : String)
    (c : CardSummary) (m : GameCardMetric) (cnt : Nat) : CardEvent :=
  { gameId := ctx.gameId, roundNumber := ctx.roundNumber,
    playerId := playerId, playerName := playerName,
    cardId := cardIdOf c, cardName := cardLabel c,
    cardSetId := c.setId, metric := m, count := cnt }

/-- The hand entries that left the player's hand:
`leftHand = [...prevHand.entries()].filter(([uuid]) => !nextHand.has(uuid))`. -/
def leftHandOf (piles0 piles1 : CardPiles) : List (String × CardSummary) :=
  (byUuid piles0.hand).filter (fun kv => ¬ kv.1 ∈ uuids piles1.hand)

/-- `!prevArena.has(uuid) && nextArena.has(uuid)`. -/
def arenaMove (piles0 piles1 : CardPiles) (u : String) : Prop :=
  ¬ u ∈ uuids (allArena piles0) ∧ u ∈ uuids (allArena piles1)

instance (piles0 piles1 : CardPiles) (u : String) :
    Decidable (arenaMove piles0 piles1 u) := by
  unfold arenaMove
  infer_instance

/-- `!prevRes.has(uuid) && nextRes.has(uuid)`. -/
def resMove (piles0 piles1 : CardPiles) (u : String) : Prop :=
  ¬ u ∈ uuids piles0.resources ∧ u ∈ uuids piles1.resources

instance (piles0 piles1 : CardPiles) (u : String) :
    Decidable (resMove piles0 piles1 u) := by
  unfold resMove
  infer_instance

/-- `nextDiscard.has(uuid) && !prevDiscard.has(uuid)`. -/
def discMove (piles0 piles1 : CardPiles) (u : String) : Prop :=
  ((byUuid piles1.discard).any (fun kv => kv.1 = u)) = true ∧
    ¬ u ∈ uuids piles0.discard

instance (piles0 piles1 : CardPiles) (u : String) :
    Decidable (discMove piles0 piles1 u) := by
  unfold discMove
  infer_instance

/-- The `playedFromHandToDiscard` set after the played loop finished: the
left-hand uuids that took the event-card (hand-to-discard) branch. -/
def playedToDiscardOf (piles0 piles1 : CardPiles) : List String :=
  ((leftHandOf piles0 piles1).filter (fun kv =>
    ¬ arenaMove piles0 piles1 kv.1 ∧ ¬ resMove piles0 piles1 kv.1 ∧
      discMove piles0 piles1 kv.1)).map (fun kv => kv.1)

/-- One iteration of the PLAYED loop (`stateDiffer.ts` lines 101–138):
arena deployment first, the resourced case silently skipped, then
event-card play into the discard pile (reading the card data from the next
discard map). -/
def playedEntry (ctx : DiffContext) (playerId playerName : String)
    (piles0 piles1 : CardPiles) (kv : String × CardSummary) :
    Option (Option String × CardEvent) :=
  if arenaMove piles0 piles1 kv.1 then
    some (some kv.1, diffMkEv ctx playerId playerName kv.2 .played 1)
  else if resMove piles0 piles1 kv.1 then none
  else if discMove piles0 piles1 kv.1 then
    match ((byUuid piles1.discard).find? (fun dv => dv.1 = kv.1)).map
        (fun dv => dv.2) with
    | some c2 =>
      some (some kv.1, diffMkEv ctx playerId playerName c2 .played 1)
    | none => none
  else none

/-- The PLAYED loop over the left-hand entries. -/
def playedEvents (ctx : DiffContext) (playerId playerName : String)
    (piles0 piles1 : CardPiles) : List (Option String × CardEvent) :=
  (leftHandOf piles0 piles1).filterMap
    (playedEntry ctx playerId playerName piles0 piles1)

/-- One iteration of the RESOURCED loop (lines 141–156). -/
def resourcedEntry (ctx : DiffContext) (playerId playerName : String)
    (piles0 piles1 : CardPiles) (kv : String × CardSummary) :
    Option (Option String × CardEvent) :=
  if resMove piles0 piles1 kv.1 then
    some (some kv.1, diffMkEv ctx playerId playerName kv.2 .resourced 1)
  else none

/-- The RESOURCED loop over the left-hand entries. -/
def resourcedEvents (ctx : DiffContext) (playerId playerName : String)
    (piles0 piles1 : CardPiles) : List (Option String × CardEvent) :=
  (leftHandOf piles0 piles1).filterMap
    (resourcedEntry ctx playerId playerName piles0 piles1)

/-- One iteration of the DISCARDED loop (lines 159–174): newly discarded
uuids not already attributed to an event-card play. -/
def discardedEntry (ctx : DiffContext) (playerId playerName : String)
    (piles0 piles1 : CardPiles) (kv : String × CardSummary) :
    Option (Option String × CardEvent) :=
  if ¬ kv.1 ∈ uuids piles0.discard ∧
      ¬ kv.1 ∈ playedToDiscardOf piles0 piles1 then
    some (some kv.1, diffMkEv ctx playerId playerName kv.2 .discarded 1)
  else none

/-- The DISCARDED loop over the next discard map entries. -/
def discardedEvents (ctx : DiffContext) (playerId playerName : String)
    (piles0 piles1 : CardPiles) : List (Option String × CardEvent) :=
  (byUuid piles1.discard).filterMap
    (discardedEntry ctx playerId playerName piles0 piles1)

/-- The DRAWN block (lines 176–211): on a strict deck decrease, one event
per newly visible hand uuid, else a single synthetic unknown-card event
carrying the exact decrease. -/
def drawnEvents (ctx : DiffContext) (playerId playerName : String)
    (piles0 piles1 : CardPiles) (deck0 deck1 : Option Nat) :
    List (Option String × CardEvent) :=
  let deckDec : Int := (deck0.getD 0 : Int) - (deck1.getD 0 : Int)
  if 0 < deckDec then
    let newInHand := piles1.hand.filter (fun c =>
      ¬ (byUuid piles0.hand).any (fun kv => kv.1 = c.uuid))
    if newInHand ≠ [] then
      newInHand.map (fun c =>
        (some c.uuid, diffMkEv ctx playerId playerName c .drawn 1))
    else
      [(none,
        { gameId := ctx.gameId, roundNumber := ctx.roundNumber,
          playerId := playerId, playerName := playerName,
          cardId := "__unknown__", cardName := "(unknown)",
          cardSetId := none, metric := .drawn,
          count := deckDec.toNat : CardEvent })]
  else []

/-- The per-player body of the `diffSnapshots` loop after the guards, in
the source's emission order: played, resourced, discarded, drawn. -/
def diffCore (ctx : DiffContext) (playerId playerName : String)
    (piles0 piles1 : CardPiles) (deck0 deck1 : Option Nat) :
    List (Option String × CardEvent) :=
  playedEvents ctx playerId playerName piles0 piles1 ++
    resourcedEvents ctx playerId playerName piles0 piles1 ++
    discardedEvents ctx playerId playerName piles0 piles1 ++
    drawnEvents ctx playerId playerName piles0 piles1 deck0 deck1

/-- One iteration of the `diffSnapshots` player loop (`stateDiffer.ts`
lines 51–212): the local-player restriction (string truthiness included),
the missing-player and missing-cardPiles guards, then the diff body.  Each
event is tagged with the uuid of the card instance it was derived from
(`none` for the synthetic unknown-draw event); erasing the tags gives the
source function's output. -/
def diffPlayer (prev next : IGameState) (ctx : DiffContext)
    (playerId : String) : List (Option String × CardEvent) :=
  -- `if (ctx.localPlayerId && playerId !== ctx.localPlayerId) continue;`
  if jsTruthy ctx.localPlayerId ∧ ctx.localPlayerId ≠ some playerId then []
  else
    match plook prev.players playerId, plook next.players playerId with
    | some p0, some p1 =>
      match p0.cardPiles, p1.cardPiles with
      | some piles0, some piles1 =>
        diffCore ctx playerId p1.name piles0 piles1
          p0.numCardsInDeck p1.numCardsInDeck
      | _, _ => []
    | _, _ => []

/-- Uuid-tagged snapshot diff: the `for playerId of Object.keys(next.players)`
loop of `diffSnapshots` with provenance tags. -/
def diffTagged (prev next : IGameState) (ctx : DiffContext) :
    List (Option String × CardEvent) :=
  (next.players.map (fun kp => kp.1)).flatMap (diffPlayer prev next ctx)

/-- `diffSnapshots` (`stateDiffer.ts`): the differencer's actual output is
the tagged diff with the provenance tags erased. -/
def diffSnapshots (prev next : IGameState) (ctx : DiffContext) :
    List CardEvent :=
  (diffTagged prev next ctx).map (fun te => te.2)

/-- The mutable fields of a `GameRecorder` instance (`gameRecorder.ts`
lines 47–78), as an explicit state value. -/
structure RecState where
  gameId : String
  startedAt : String
  prevState : Option IGameState := none
  cardEvents : List CardEvent := []
  rawLog : List IChatEntry := []
  players : Option (GamePlayer × GamePlayer) := none
  isLimitedFormat : Bool := false
  format : SwuGameFormat := .premier
  roundNumber : Nat := 0
  completed : Bool := false
  snapshots : List RoundSnapshot := []
  currentRoundLogs : List IChatEntry := []
  currentRoundBaseHpChanges : List BaseHpChange := []
  lastKnownYouHp : Option Nat := none
  lastKnownOppHp : Option Nat := none
  prevPhase : Option PhaseName := none
  localPlayerId : Option String := none
deriving DecidableEq, Repr

/-- The recorder state a fresh `new GameRecorder(gameId, onComplete)` starts
in (constructor, `gameRecorder.ts` lines 74–78). -/
def initRecState (gameId startedAt : String) : RecState :=
  { gameId := gameId, startedAt := startedAt }

/-- `buildPlayer` (`gameRecorder.ts` lines 29–43), taking the already
looked-up player summary. -/
def buildPlayer (playerId : String) (p : PlayerStateSummary) : GamePlayer :=
  { id := playerId
    name := p.name
    leaderId := (p.leader.bind (fun l => l.id)).getD ""
    leaderName :=
      ((p.leader.bind (fun l => l.name)).orElse
        (fun _ => p.leader.bind (fun l => l.id))).getD ""
    leaderSetId := p.leader.bind (fun l => l.setId)
    baseId := (p.base.bind (fun b => b.id)).getD ""
    baseName :=
      ((p.base.bind (fun b => b.name)).orElse
        (fun _ => p.base.bind (fun b => b.id))).getD ""
    baseSetId := p.base.bind (fun b => b.setId)
    baseAspects := p.base.bind (fun b => b.aspects)
    deckSize := p.numCardsInDeck }

/-- Local-player resolution (`ingest`, lines 88–101): when `localPlayerId`
is still falsy and the snapshot carries a truthy `playerUpdate` hint, the
first player whose key, display name or internal id matches the hint is
stored (or `null` when none matches). -/
def resolveLocal (rs : RecState) (s : IGameState) : RecState :=
  if ¬ jsTruthy rs.localPlayerId ∧ jsTruthy s.playerUpdate then
    let pu := s.playerUpdate.getD ""
    { rs with localPlayerId :=
        (s.players.find? (fun kp =>
          kp.1 = pu ∨ kp.2.name = pu ∨ kp.2.id = pu)).map (fun kp => kp.1) }
  else rs

/-- Player-pair capture (`ingest`, lines 104–123): once at least two player
keys are present, the local player (resolved id when it is truthy and
present, else the first key) is stored in slot 0 and the other player in
slot 1; the limited-format flag is `min deck ≤ 35` (false when either deck
size is absent, matching `Math.min(undefined, _) <= 35` being false), and
the declared game mode becomes the format. -/
def capturePair (rs : RecState) (s : IGameState) : RecState :=
  if rs.players = none then
    let ids := s.players.map (fun kp => kp.1)
    if ids.length ≥ 2 then
      let localId :=
        match rs.localPlayerId with
        | some lp =>
          if lp ≠ "" ∧ (plook s.players lp).isSome then lp else ids.getD 0 ""
        | none => ids.getD 0 ""
      let oppId := (ids.find? (fun i => i ≠ localId)).getD (ids.getD 1 "")
      match plook s.players localId, plook s.players oppId with
      | some pl, some po =>
        { rs with
          players := some (buildPlayer localId pl, buildPlayer oppId po)
          isLimitedFormat :=
            (match pl.numCardsInDeck, po.numCardsInDeck with
             | some a, some b => min a b ≤ 35
             | _, _ => false)
          format := s.gameMode }
      | _, _ => rs
    else rs
  else rs

/-- Log accumulation (`ingest`, lines 126–134): incremental entries go to
the cumulative raw log and the per-round buffer, and the log parser's
events (at round `max 1 roundNumber`) are appended. -/
def accumulateLogs (plog : String → Nat → List IChatEntry → List CardEvent)
    (rs : RecState) (s : IGameState) : RecState :=
  if s.newMessages ≠ [] then
    { rs with
      rawLog := rs.rawLog ++ s.newMessages
      currentRoundLogs := rs.currentRoundLogs ++ s.newMessages
      cardEvents :=
        rs.cardEvents ++ plog rs.gameId (max 1 rs.roundNumber) s.newMessages }
  else rs

/-- `Math.max(0, (base?.hp ?? 30) - (base?.damage ?? 0))`. -/
def baseHpOf (ps : PlayerStateSummary) : Nat :=
  (((ps.base.bind (fun b => b.hp)).getD 30 : Int) -
    ((ps.base.bind (fun b => b.damage)).getD 0 : Int)).toNat

/-- `buildPlayerSnapshot` (inside `captureSnapshot`, lines 216–229).  The
source reads `ps.cardPiles.resources` with NO guard: a player state without
`cardPiles` makes the real `ingest` throw a TypeError here (this is the one
exception that escapes `ingest`; see `ingestThrows`).  To keep the state
function total, absent piles default to empty here, and every theorem whose
executions can reach `captureSnapshot` either carries an
`ingestThrows … = false` hypothesis or evaluates inputs whose looked-up
players all carry piles. -/
def buildPlayerSnapshot (ps : PlayerStateSummary) : PlayerSnapshot :=
  let piles := ps.cardPiles.getD {}
  { name := ps.name
    hasInitiative := ps.hasInitiative
    availableResources := ps.availableResources
    totalResources := piles.resources.length
    credits := (piles.credits.map (fun cs => cs.length)).getD 0
    numCardsInDeck := ps.numCardsInDeck
    base := ps.base
    leader := ps.leader
    groundArena := piles.groundArena
    spaceArena := piles.spaceArena
    hand := piles.hand
    discard := piles.discard }

/-- `captureSnapshot` (`gameRecorder.ts` lines 210–240). -/
def captureSnapshot (rs : RecState) (s : IGameState) (round : Nat)
    (now : String) : Option RoundSnapshot :=
  match rs.players with
  | none => none
  | some (localPlayer, oppPlayer) =>
    match plook s.players localPlayer.id, plook s.players oppPlayer.id with
    | some localState, some oppState =>
      some { round := round, phase := s.phase, capturedAt := now,
             players :=
               (buildPlayerSnapshot localState, buildPlayerSnapshot oppState),
             logEntries := [], baseHpChanges := [] }
    | _, _ => none

/-- Rewrites the last element of the round-snapshot list in place, as the
source's mutation of `this.snapshots[this.snapshots.length - 1]` does. -/
def updateLast (f : RoundSnapshot → RoundSnapshot) :
    List RoundSnapshot → List RoundSnapshot
  | [] => []
  | [x] => [f x]
  | x :: y :: xs => x :: updateLast f (y :: xs)

/-- The round-boundary / mid-round branch of `ingest` (lines 136–181),
without the trailing `this.prevPhase = state.phase` assignment.  On a
transition into the action phase with a known player pair: flush the
finished round's buffers into its snapshot, clear them, advance the round
number (`max (r+1) 1`), capture the new round's snapshot, and reseed the
base-HP baselines.  While staying in the action phase: record a base-HP
sample when either player's base HP moved. -/
def roundStep (now : String) (rs : RecState) (s : IGameState) : RecState :=
  if s.phase = .action ∧ rs.prevPhase ≠ some .action ∧ rs.players.isSome then
    let snapshots1 :=
      if rs.snapshots ≠ [] then
        updateLast (fun p =>
          { p with logEntries := rs.currentRoundLogs,
                   baseHpChanges := rs.currentRoundBaseHpChanges })
          rs.snapshots
      else rs.snapshots
    let round2 := max (rs.roundNumber + 1) 1
    let rs1 := { rs with
      snapshots := snapshots1
      currentRoundLogs := []
      currentRoundBaseHpChanges := []
      roundNumber := round2 }
    let snap := captureSnapshot rs1 s round2 now
    let rs2 := { rs1 with snapshots := rs1.snapshots ++ snap.toList }
    if snap.isSome ∧ rs2.players.isSome then
      match rs2.players with
      | some (lp, po) =>
        { rs2 with lastKnownYouHp := (plook s.players lp.id).map baseHpOf,
                   lastKnownOppHp := (plook s.players po.id).map baseHpOf }
      | none => rs2
    else rs2
  else if s.phase = .action ∧ rs.prevPhase = some .action ∧ rs.players.isSome
  then
    match rs.players with
    | some (lp, po) =>
      match plook s.players lp.id, plook s.players po.id with
      | some ls, some os =>
        let youHp := baseHpOf ls
        let oppHp := baseHpOf os
        let rs1 :=
          if rs.lastKnownYouHp ≠ none ∧
              (some youHp ≠ rs.lastKnownYouHp ∨ some oppHp ≠ rs.lastKnownOppHp)
          then
            { rs with currentRoundBaseHpChanges :=
                rs.currentRoundBaseHpChanges ++ [⟨youHp, oppHp⟩] }
          else rs
        { rs1 with lastKnownYouHp := some youHp, lastKnownOppHp := some oppHp }
      | _, _ => rs
    | none => rs
  else rs

/-- Round handling plus the unconditional `this.prevPhase = state.phase`
(line 182). -/
def detectRound (now : String) (rs : RecState) (s : IGameState) : RecState :=
  { roundStep now rs s with prevPhase := some s.phase }

/-- Differencing against the previous snapshot (`ingest`, lines 185–199),
then `this.prevState = state`.  The embedded differencer is total, so the
source's try/catch around it is a no-op here. -/
def runDiff (rs : RecState) (s : IGameState) : RecState :=
  let ctx : DiffContext :=
    { gameId := rs.gameId, roundNumber := rs.roundNumber,
      localPlayerId := rs.localPlayerId }
  let rs1 :=
    match rs.prevState with
    | some pv =>
      { rs with cardEvents := rs.cardEvents ++ diffSnapshots pv s ctx }
    | none => rs
  { rs1 with prevState := some s }

/-- `GameRecorder.finalize` (lines 242–282): mark completed, append any
still-buffered logs/HP samples into the last round snapshot, compute the
winner (`winners.length === 1 ? winners[0] : null`), and assemble the
record handed to the completion callback. -/
def finalizeRec (now : String) (rs : RecState) (s : IGameState)
    (pr : GamePlayer × GamePlayer) : RecState × GameRecord :=
  let snapshots1 :=
    if rs.snapshots ≠ [] then
      updateLast (fun last =>
        let last1 :=
          if rs.currentRoundLogs ≠ [] then
            { last with logEntries := last.logEntries ++ rs.currentRoundLogs }
          else last
        if rs.currentRoundBaseHpChanges ≠ [] then
          { last1 with baseHpChanges :=
              last1.baseHpChanges ++ rs.currentRoundBaseHpChanges }
        else last1)
        rs.snapshots
    else rs.snapshots
  let winner := match s.winners with | [w] => some w | _ => none
  ({ rs with completed := true, snapshots := snapshots1 },
   { gameId := rs.gameId, startedAt := rs.startedAt, completedAt := now,
     format := rs.format, isLimitedFormat := rs.isLimitedFormat,
     players := pr, winner := winner, rounds := rs.roundNumber,
     cardEvents := rs.cardEvents, rawLog := rs.rawLog,
     snapshots := snapshots1 })

/-- `GameRecorder.ingest` (`gameRecorder.ts` lines 81–208).  Returns the
boolean the method returns, the post-call recorder state, and the record
passed to the completion callback when this call finalized the game. -/
def ingest (plog : String → Nat → List IChatEntry → List CardEvent)
    (now : String) (rs : RecState) (s : IGameState) :
    Bool × RecState × Option GameRecord :=
  if rs.completed then (true, rs, none)
  else if s.id ≠ rs.gameId then (false, rs, none)
  else
    let rs1 := resolveLocal rs s
    let rs2 := capturePair rs1 s
    let rs3 := accumulateLogs plog rs2 s
    let rs4 := detectRound now rs3 s
    let rs5 := runDiff rs4 s
    if s.winners ≠ [] then
      match rs5.players with
      | some pr =>
        let fr := finalizeRec now rs5 s pr
        (true, fr.1, some fr.2)
      | none => (false, rs5, none)
    else (false, rs5, none)

/-- Feeding a whole sequence of snapshots to one recorder, collecting every
record the completion callback receives. -/
def ingestList (plog : String → Nat → List IChatEntry → List CardEvent)
    (now : String) (rs : RecState) :
    List IGameState → RecState × List GameRecord
  | [] => (rs, [])
  | s :: ss =>
    let r := ingest plog now rs s
    let rest := ingestList plog now r.2.1 ss
    (rest.1, r.2.2.toList ++ rest.2)

/-- The one exception path of the real `ingest`: inside `captureSnapshot`,
`buildPlayerSnapshot` reads `ps.cardPiles.resources` without a guard
(gameRecorder.ts line 220), so a TypeError propagates out of `ingest`
exactly when a live, id-matching call triggers the round transition
(`state.phase === 'action' && prevPhase !== 'action' && this.players`) and
both looked-up player states exist (`if (!localState || !oppState) return
null` has passed) but either one lacks `cardPiles`.  Every other property
read in `ingest` is optional-chained or guarded, and the differ call is
wrapped in try/catch, so this predicate is `false` exactly on the inputs
where the total `ingest` above is a faithful model of the method. -/
def ingestThrows (rs : RecState) (s : IGameState) : Bool :=
  if rs.completed then false
  else if s.id ≠ rs.gameId then false
  else
    let rs2 := capturePair (resolveLocal rs s) s
    if s.phase = .action ∧ rs2.prevPhase ≠ some .action ∧
        rs2.players.isSome = true then
      match rs2.players with
      | some (lp, po) =>
        match plook s.players lp.id, plook s.players po.id with
        | some ls, some os => ls.cardPiles.isNone || os.cardPiles.isNone
        | _, _ => false
      | none => false
    else false

/-! ## JSON values and the frame parser (`socketParser.ts`)

`JSON.parse` / `JSON.stringify` are platform builtins, not repository code;
they are modelled by an executable renderer/parser pair over an inductive
JSON value type.  The parser accepts exactly the whitespace-free JSON texts
the renderer produces (plus the malformed-input rejections `parseFrame`
relies on); this suffices for every claim, all of which evaluate the JSON
layer only on rendered texts or on non-JSON prefixes. -/

/-- JSON values (numbers restricted to integers, which is exact for every
payload the tracked game emits). -/
inductive Json where
  | null
  | bool (b : Bool)
  | num (n : Int)
  | str (s : String)
  | arr (elems : List Json)
  | obj (fields : List (String × Json))

/-- The open-brace character, written via its code point. -/
def lbrace : Char := Char.ofNat 123

/-- The close-brace character, written via its code point. -/
def rbrace : Char := Char.ofNat 125

/-- The decimal digit character for `d < 10`. -/
def digitChar : Nat → Char
  | 0 => '0' | 1 => '1' | 2 => '2' | 3 => '3' | 4 => '4'
  | 5 => '5' | 6 => '6' | 7 => '7' | 8 => '8' | _ => '9'

/-- Decimal value of a digit character, `none` otherwise. -/
def digitVal? : Char → Option Nat
  | '9' => some 9 | '8' => some 8 | '7' => some 7 | '6' => some 6
  | '5' => some 5 | '4' => some 4 | '3' => some 3 | '2' => some 2
  | '1' => some 1 | '0' => some 0 | _ => none

/-- Decimal rendering of a natural number, most significant digit first. -/
def renderNat (n : Nat) : List Char :=
  if h : n < 10 then [digitChar n]
  else renderNat (n / 10) ++ [digitChar (n % 10)]
decreasing_by exact Nat.div_lt_self (by omega) (by omega)

/-- Decimal rendering of an integer (sign, then digits). -/
def renderInt (i : Int) : List Char :=
  if i < 0 then '-' :: renderNat i.natAbs else renderNat i.toNat

/-- JSON string-character escaping: `"` and `\` get a backslash, everything
else is emitted verbatim. -/
def escChar (c : Char) : List Char :=
  if c = '"' ∨ c = '\\' then ['\\', c] else [c]

/-- Rendered JSON string literal (opening and closing quote included). -/
def renderKey (k : String) : List Char :=
  '"' :: (k.data.flatMap escChar ++ ['"'])

mutual

/-- Whitespace-free JSON rendering of a value (`JSON.stringify`). -/
def render : Json → List Char
  | .null => 'n' :: 'u' :: 'l' :: ['l']
  | .bool true => 't' :: 'r' :: 'u' :: ['e']
  | .bool false => 'f' :: 'a' :: 'l' :: 's' :: ['e']
  | .num i => renderInt i
  | .str s => renderKey s
  | .arr [] => ['[', ']']
  | .arr (v :: vs) => '[' :: (render v ++ renderArrTail vs)
  | .obj [] => [lbrace, rbrace]
  | .obj ((k, v) :: kvs) =>
    lbrace :: (renderKey k ++ ':' :: render v ++ renderObjTail kvs)

/-- Rendering of the remaining array elements (with separators and the
closing bracket). -/
def renderArrTail : List Json → List Char
  | [] => [']']
  | v :: vs => ',' :: (render v ++ renderArrTail vs)

/-- Rendering of the remaining object members (with separators and the
closing brace). -/
def renderObjTail : List (String × Json) → List Char
  | [] => [rbrace]
  | (k, v) :: kvs => ',' :: (renderKey k ++ ':' :: render v ++ renderObjTail kvs)

end

/-- Greedy digit accumulation: consumes leading digit characters into the
accumulator and stops at the first non-digit. -/
def parseDigits : List Char → Nat → Nat × List Char
  | c :: cs, acc =>
    match digitVal? c with
    | some d => parseDigits cs (acc * 10 + d)
    | none => (acc, c :: cs)
  | [], acc => (acc, [])

/-- Parses a JSON natural-number literal (at least one digit required). -/
def parseNum (cs : List Char) : Option (Nat × List Char) :=
  match cs with
  | c :: _ => if (digitVal? c).isSome then some (parseDigits cs 0) else none
  | [] => none

/-- Parses the body of a JSON string literal after the opening quote,
up to the closing quote, undoing the backslash escapes. -/
def parseStrAux : List Char → Option (List Char × List Char)
  | [] => none
  | c :: rest =>
    if c = '"' then some ([], rest)
    else if c = '\\' then
      match rest with
      | [] => none
      | e :: rest2 => (parseStrAux rest2).map (fun p => (e :: p.1, p.2))
    else (parseStrAux rest).map (fun p => (c :: p.1, p.2))
termination_by cs => cs.length
decreasing_by all_goals simp_wf <;> omega

/-- Consumes an expected literal character sequence. -/
def expectLits : List Char → List Char → Option (List Char)
  | [], cs => some cs
  | p :: ps, c :: cs => if c = p then expectLits ps cs else none
  | _ :: _, [] => none

mutual

/-- Fuel-indexed recursive-descent JSON value parser, returning the value
and the unconsumed suffix. -/
def parseVal : Nat → List Char → Option (Json × List Char)
  | 0, _ => none
  | Nat.succ fuel, cs =>
    match cs with
    | [] => none
    | c :: rest =>
      if c = 'n' then
        (expectLits ['u', 'l', 'l'] rest).map (fun r => (Json.null, r))
      else if c = 't' then
        (expectLits ['r', 'u', 'e'] rest).map (fun r => (Json.bool true, r))
      else if c = 'f' then
        (expectLits ['a', 'l', 's', 'e'] rest).map
          (fun r => (Json.bool false, r))
      else if c = '"' then
        (parseStrAux rest).map (fun p => (Json.str (String.mk p.1), p.2))
      else if c = '[' then
        match rest with
        | [] => none
        | c2 :: r2 =>
          if c2 = ']' then some (Json.arr [], r2)
          else
            match parseVal fuel rest with
            | some (v, r1) =>
              match parseArrTail fuel r1 with
              | some (vs, rr) => some (Json.arr (v :: vs), rr)
              | none => none
            | none => none
      else if c = lbrace then
        match rest with
        | [] => none
        | c2 :: r2 =>
          if c2 = rbrace then some (Json.obj [], r2)
          else if c2 = '"' then
            match parseStrAux r2 with
            | some (k, r3) =>
              match r3 with
              | [] => none
              | c3 :: r4 =>
                if c3 = ':' then
                  match parseVal fuel r4 with
                  | some (v, r5) =>
                    match parseObjTail fuel r5 with
                    | some (kvs, r6) =>
                      some (Json.obj ((String.mk k, v) :: kvs), r6)
                    | none => none
                  | none => none
                else none
            | none => none
          else none
      else if c = '-' then
        match parseNum rest with
        | some (n, r1) => some (Json.num (-(n : Int)), r1)
        | none => none
      else
        match parseNum cs with
        | some (n, r1) => some (Json.num ((n : Int)), r1)
        | none => none

/-- Parses the rest of an array after its first element: a `,`-separated
element list closed by `]`. -/
def parseArrTail : Nat → List Char → Option (List Json × List Char)
  | 0, _ => none
  | Nat.succ fuel, cs =>
    match cs with
    | [] => none
    | c :: rest =>
      if c = ']' then some ([], rest)
      else if c = ',' then
        match parseVal fuel rest with
        | some (v, r1) =>
          match parseArrTail fuel r1 with
          | some (vs, r2) => some (v :: vs, r2)
          | none => none
        | none => none
      else none

/-- Parses the rest of an object after its first member: a `,`-separated
member list closed by `}`. -/
def parseObjTail : Nat → List Char → Option (List (String × Json) × List Char)
  | 0, _ => none
  | Nat.succ fuel, cs =>
    match cs with
    | [] => none
    | c :: rest =>
      if c = rbrace then some ([], rest)
      else if c = ',' then
        match rest with
        | [] => none
        | c2 :: r2 =>
          if c2 = '"' then
            match parseStrAux r2 with
            | some (k, r3) =>
              match r3 with
              | [] => none
              | c3 :: r4 =>
                if c3 = ':' then
                  match parseVal fuel r4 with
                  | some (v, r5) =>
                    match parseObjTail fuel r5 with
                    | some (kvs, r6) => some ((String.mk k, v) :: kvs, r6)
                    | none => none
                  | none => none
                else none
            | none => none
          else none
      else none

end

mutual

/-- Fuel sufficient for `parseVal` on the rendered text of a value. -/
def needVal : Json → Nat
  | .null => 1
  | .bool _ => 1
  | .num _ => 1
  | .str _ => 1
  | .arr [] => 1
  | .arr (v :: vs) => 1 + needVal v + needTail vs
  | .obj [] => 1
  | .obj ((_, v) :: kvs) => 1 + needVal v + needMems kvs

/-- Fuel sufficient for `parseArrTail` on a rendered element tail. -/
def needTail : List Json → Nat
  | [] => 1
  | v :: vs => 1 + needVal v + needTail vs

/-- Fuel sufficient for `parseObjTail` on a rendered member tail. -/
def needMems : List (String × Json) → Nat
  | [] => 1
  | (_, v) :: kvs => 1 + needVal v + needMems kvs

end

/-- Model of the `JSON.parse` builtin: parse a complete JSON text with
ample fuel, rejecting trailing garbage. -/
def Json.parse (s : String) : Option Json :=
  match parseVal (s.data.length + 1) s.data with
  | some (v, []) => some v
  | _ => none

/-- `Json.render` packaged as a `String` (the `JSON.stringify` model). -/
def Json.renderString (v : Json) : String :=
  String.mk (render v)

/-- Whether a value is JSON `null`. -/
def Json.isNull : Json → Bool
  | .null => true
  | _ => false

mutual

/-- JavaScript `String(x)` coercion of a decoded JSON value (used by the
parser for the event name). -/
def jsToString : Json → String
  | .null => "null"
  | .bool true => "true"
  | .bool false => "false"
  | .num i => String.mk (renderInt i)
  | .str s => s
  | .arr l => jsArrStr l
  | .obj _ => "[object Object]"

/-- JavaScript `Array.prototype.toString`: elements joined with `,`,
with `null` contributing the empty string. -/
def jsArrStr : List Json → String
  | [] => ""
  | x :: xs =>
    let hd := if x.isNull then "" else jsToString x
    match xs with
    | [] => hd
    | _ :: _ => hd ++ "," ++ jsArrStr xs

end

/-- `types.ts` `SocketIOFrame.type` values. -/
inductive FrameType where
  | event
  | ack
  | error
  | other
deriving DecidableEq, Repr

/-- `types.ts` `SocketIOFrame` (the optional fields are absent on
non-event/ack frames). -/
structure SocketIOFrame where
  type : FrameType
  event : Option String := none
  data : Option (List Json) := none

/-- Namespace stripping in `parseFrame` (`socketParser.ts` lines 38–45):
a body starting with `/` is cut after its first comma; a namespace with no
comma makes the frame unparseable. -/
def stripNs (body : List Char) : Option (List Char) :=
  match body with
  | '/' :: _ =>
    match body.dropWhile (fun c => c ≠ ',') with
    | [] => none
    | _ :: t => some t
  | _ => some body

/-- Ack-id stripping (`socketParser.ts` line 48, the regex
`^\d+(?=\[)`): a non-empty leading digit run is removed exactly when the
character after it is `[`. -/
def stripAckId (body : List Char) : List Char :=
  let ds := body.takeWhile (fun c => (digitVal? c).isSome)
  let rest := body.dropWhile (fun c => (digitVal? c).isSome)
  if ds ≠ [] ∧ rest.head? = some '[' then rest else body

/-- `parseFrame` (`socketParser.ts` lines 23–73).  A frame not starting
with the Engine.IO message digit `4` is rejected; a second digit other than
`2` (event) / `3` (ack) — or a missing second character — yields the
recognized-but-ignored `other` frame; otherwise the JSON array body is
decoded after namespace/ack-id stripping. -/
def parseFrameAux : List Char → Option SocketIOFrame
  | '4' :: c1 :: rest =>
    if c1 ≠ '2' ∧ c1 ≠ '3' then some { type := .other }
    else
      match stripNs rest with
      | none => none
      | some body1 =>
        let body := stripAckId body1
        if body.head? = some '[' then
          match Json.parse (String.mk body) with
          | some (Json.arr l) =>
            if c1 = '2' then
              match l with
              | [] =>
                some { type := .event, event := some "undefined",
                       data := some [] }
              | e :: ds =>
                some { type := .event, event := some (jsToString e),
                       data := some ds }
            else some { type := .ack, data := some l }
          | some _ => none
          | none => none
        else none
  | ['4'] => some { type := .other }
  | _ => none

/-- `parseFrame` on the raw frame text: `parseFrameAux` over its
characters. -/
def parseFrame (raw : String) : Option SocketIOFrame :=
  parseFrameAux raw.data

/-! ## Round-trip lemmas for the JSON model -/

/-- The suffix a number may be followed by must not start with a digit. -/
def noDigitHead (cs : List Char) : Prop :=
  ∀ c, cs.head? = some c → digitVal? c = none

theorem noDigitHead_nil : noDigitHead [] := by
  intro c h
  simp at h

theorem noDigitHead_cons {c : Char} (h : digitVal? c = none) (cs : List Char) :
    noDigitHead (c :: cs) := by
  intro c2 h2
  simp at h2
  simpa [h2] using h

theorem digitVal?_digitChar (d : Nat) (hd : d < 10) :
    digitVal? (digitChar d) = some d := by
  interval_cases d <;> rfl

theorem renderNat_low (n : Nat) (h : n < 10) : renderNat n = [digitChar n] := by
  rw [renderNat]
  simp [h]

theorem renderNat_high (n : Nat) (h : ¬ n < 10) :
    renderNat n = renderNat (n / 10) ++ [digitChar (n % 10)] := by
  rw [renderNat]
  simp [h]

theorem parseDigits_stop (cs : List Char) (acc : Nat) (h : noDigitHead cs) :
    parseDigits cs acc = (acc, cs) := by
  cases cs with
  | nil => rfl
  | cons c cs2 =>
    have hc : digitVal? c = none := h c rfl
    simp [parseDigits, hc]

theorem parseDigits_render (n : Nat) :
    ∀ acc rest, parseDigits (renderNat n ++ rest) acc =
      parseDigits rest (acc * 10 ^ (renderNat n).length + n) := by
  induction n using Nat.strong_induction_on with
  | _ n ih =>
    intro acc rest
    by_cases h : n < 10
    · rw [renderNat_low n h]
      simp [parseDigits, digitVal?_digitChar n h]
    · rw [renderNat_high n h]
      have hdiv : n / 10 < n := Nat.div_lt_self (by omega) (by omega)
      rw [List.append_assoc, ih (n / 10) hdiv acc
        ([digitChar (n % 10)] ++ rest)]
      simp only [List.singleton_append, parseDigits,
        digitVal?_digitChar (n % 10) (Nat.mod_lt n (by omega))]
      have hlen : (renderNat (n / 10) ++ [digitChar (n % 10)]).length =
          (renderNat (n / 10)).length + 1 := by simp
      rw [hlen]
      congr 1
      have := Nat.div_add_mod n 10
      ring_nf
      omega

theorem renderNat_head_digit (n : Nat) :
    ∃ d cs, renderNat n = digitChar d :: cs ∧ d < 10 := by
  induction n using Nat.strong_induction_on with
  | _ n ih =>
    by_cases h : n < 10
    · exact ⟨n, [], renderNat_low n h, h⟩
    · obtain ⟨d, cs, hn, hd⟩ := ih (n / 10) (Nat.div_lt_self (by omega) (by omega))
      refine ⟨d, cs ++ [digitChar (n % 10)], ?_, hd⟩
      rw [renderNat_high n h, hn]
      simp

theorem parseNum_render (n : Nat) (rest : List Char) (h : noDigitHead rest) :
    parseNum (renderNat n ++ rest) = some (n, rest) := by
  obtain ⟨d, cs, hn, hd⟩ := renderNat_head_digit n
  rw [hn]
  simp only [List.cons_append, parseNum, digitVal?_digitChar d hd,
    Option.isSome_some, if_pos]
  rw [← List.cons_append, ← hn, parseDigits_render n 0 rest,
    parseDigits_stop rest _ h]
  simp

theorem parseStrAux_render (l : List Char) :
    ∀ rest, parseStrAux (l.flatMap escChar ++ '"' :: rest) = some (l, rest) := by
  induction l with
  | nil =>
    intro rest
    rw [parseStrAux.eq_def]
    simp
  | cons c l ih =>
    intro rest
    by_cases hc : c = '"' ∨ c = '\\'
    · have hesc : escChar c = ['\\', c] := by simp [escChar, hc]
      simp only [List.flatMap_cons, hesc, List.append_assoc, List.cons_append]
      rw [parseStrAux.eq_def]
      simp [ih rest]
    · have hesc : escChar c = [c] := by simp [escChar, hc]
      push_neg at hc
      simp only [List.flatMap_cons, hesc, List.append_assoc, List.cons_append]
      rw [parseStrAux.eq_def]
      simp [hc.1, hc.2, ih rest]

theorem expectLits_append (p rest : List Char) :
    expectLits p (p ++ rest) = some rest := by
  induction p with
  | nil => rfl
  | cons c p ih => simp [expectLits, ih]

theorem stringMk_data (s : String) : String.mk s.data = s := rfl

theorem one_le_needVal (v : Json) : 1 ≤ needVal v := by
  cases v with
  | arr l =>
    cases l with
    | nil => simp [needVal]
    | cons v vs => rw [show needVal (.arr (v :: vs)) = 1 + needVal v + needTail vs from rfl]; omega
  | obj l =>
    cases l with
    | nil => simp [needVal]
    | cons kv kvs =>
      obtain ⟨k, v⟩ := kv
      rw [show needVal (.obj ((k, v) :: kvs)) = 1 + needVal v + needMems kvs from rfl]
      omega
  | null => simp [needVal]
  | bool b => simp [needVal]
  | num n => simp [needVal]
  | str s => simp [needVal]

theorem one_le_needTail (vs : List Json) : 1 ≤ needTail vs := by
  cases vs with
  | nil => simp [needTail]
  | cons v vs => rw [show needTail (v :: vs) = 1 + needVal v + needTail vs from rfl]; omega

theorem one_le_needMems (kvs : List (String × Json)) : 1 ≤ needMems kvs := by
  cases kvs with
  | nil => simp [needMems]
  | cons kv kvs =>
    obtain ⟨k, v⟩ := kv
    rw [show needMems ((k, v) :: kvs) = 1 + needVal v + needMems kvs from rfl]
    omega

/-- The first character of any rendered value is never a closing bracket
(used to show the array-element match takes its default arm). -/
theorem render_head_spec (v : Json) : ∃ c cs, render v = c :: cs ∧ c ≠ ']' := by
  cases v with
  | null => exact ⟨'n', _, rfl, by decide⟩
  | bool b =>
    cases b with
    | false => exact ⟨'f', _, rfl, by decide⟩
    | true => exact ⟨'t', _, rfl, by decide⟩
  | num i =>
    by_cases hi : i < 0
    · refine ⟨'-', renderNat i.natAbs, ?_, by decide⟩
      rw [show render (.num i) = renderInt i from rfl, renderInt, if_pos hi]
    · obtain ⟨d, cs, hn, hd⟩ := renderNat_head_digit i.toNat
      refine ⟨digitChar d, cs, ?_, ?_⟩
      · rw [show render (.num i) = renderInt i from rfl, renderInt, if_neg hi, hn]
      · interval_cases d <;> decide
  | str s => exact ⟨'"', _, rfl, by decide⟩
  | arr l =>
    cases l with
    | nil => exact ⟨'[', _, rfl, by decide⟩
    | cons v vs => exact ⟨'[', _, rfl, by decide⟩
  | obj l =>
    cases l with
    | nil => exact ⟨lbrace, _, rfl, by decide⟩
    | cons kv kvs =>
      obtain ⟨k, v⟩ := kv
      exact ⟨lbrace, _, rfl, by decide⟩

theorem noDigitHead_renderArrTail (vs : List Json) (rest : List Char) :
    noDigitHead (renderArrTail vs ++ rest) := by
  cases vs with
  | nil => exact noDigitHead_cons (by decide) _
  | cons v vs2 => exact noDigitHead_cons (by decide) _

theorem noDigitHead_renderObjTail (kvs : List (String × Json))
    (rest : List Char) : noDigitHead (renderObjTail kvs ++ rest) := by
  cases kvs with
  | nil => exact noDigitHead_cons (by decide) _
  | cons kv kvs2 =>
    obtain ⟨k, v⟩ := kv
    exact noDigitHead_cons (by decide) _


/-- `parseVal` dispatch for a leading digit: all keyword/string/bracket
branches are skipped and the number branch runs on the whole input. -/
theorem parseVal_digit (fuel : Nat) (c : Char) (hdig : (digitVal? c).isSome)
    (cs : List Char) :
    parseVal (fuel + 1) (c :: cs) =
      match parseNum (c :: cs) with
      | some (n, r1) => some (Json.num ((n : Int)), r1)
      | none => none := by
  have h1 : c ≠ 'n' := by intro h; subst h; exact absurd hdig (by decide)
  have h2 : c ≠ 't' := by intro h; subst h; exact absurd hdig (by decide)
  have h3 : c ≠ 'f' := by intro h; subst h; exact absurd hdig (by decide)
  have h4 : c ≠ '"' := by intro h; subst h; exact absurd hdig (by decide)
  have h5 : c ≠ '[' := by intro h; subst h; exact absurd hdig (by decide)
  have h6 : c ≠ lbrace := by intro h; subst h; exact absurd hdig (by decide)
  have h7 : c ≠ '-' := by intro h; subst h; exact absurd hdig (by decide)
  rw [parseVal.eq_def]
  simp only [h1, h2, h3, h4, h5, h6, h7, if_false, if_neg, ite_false]

/-- Round-trip correctness of the JSON model: with enough fuel, parsing a
rendered value (followed by any non-digit-leading suffix) succeeds and
returns exactly that value and suffix. -/
theorem parse_render_rt (fuel : Nat) :
    (∀ v rest, needVal v ≤ fuel → noDigitHead rest →
      parseVal fuel (render v ++ rest) = some (v, rest)) ∧
    (∀ vs rest, needTail vs ≤ fuel → noDigitHead rest →
      parseArrTail fuel (renderArrTail vs ++ rest) = some (vs, rest)) ∧
    (∀ kvs rest, needMems kvs ≤ fuel → noDigitHead rest →
      parseObjTail fuel (renderObjTail kvs ++ rest) = some (kvs, rest)) := by
  induction fuel with
  | zero =>
    refine ⟨?_, ?_, ?_⟩
    · intro v rest hf _
      exact absurd hf (by have := one_le_needVal v; omega)
    · intro vs rest hf _
      exact absurd hf (by have := one_le_needTail vs; omega)
    · intro kvs rest hf _
      exact absurd hf (by have := one_le_needMems kvs; omega)
  | succ fuel ih =>
    obtain ⟨ihv, iht, ihm⟩ := ih
    refine ⟨?_, ?_, ?_⟩
    · intro v rest hf hrest
      cases v with
      | null => exact rfl
      | bool b => cases b <;> exact rfl
      | num i =>
        rw [show render (Json.num i) = renderInt i from rfl, renderInt]
        by_cases hi : i < 0
        · rw [if_pos hi, List.cons_append,
            show parseVal (fuel + 1) ('-' :: (renderNat i.natAbs ++ rest)) =
              (match parseNum (renderNat i.natAbs ++ rest) with
               | some (n, r1) => some (Json.num (-(n : Int)), r1)
               | none => none) from rfl,
            parseNum_render i.natAbs rest hrest]
          have hcast : -((i.natAbs : Nat) : Int) = i := by omega
          show some (Json.num (-((i.natAbs : Nat) : Int)), rest) =
            some (Json.num i, rest)
          rw [hcast]
        · obtain ⟨d, cs, hn, hd⟩ := renderNat_head_digit i.toNat
          rw [if_neg hi, hn, List.cons_append,
            parseVal_digit fuel (digitChar d)
              (by rw [digitVal?_digitChar d hd]; rfl) _,
            ← List.cons_append, ← hn, parseNum_render i.toNat rest hrest]
          have hcast : ((i.toNat : Nat) : Int) = i := by omega
          show some (Json.num ((i.toNat : Nat) : Int), rest) =
            some (Json.num i, rest)
          rw [hcast]
      | str s =>
        show parseVal (fuel + 1)
          (('"' :: (s.data.flatMap escChar ++ ['"'])) ++ rest) =
            some (Json.str s, rest)
        rw [List.cons_append,
          show parseVal (fuel + 1)
              ('"' :: ((s.data.flatMap escChar ++ ['"']) ++ rest)) =
            (parseStrAux ((s.data.flatMap escChar ++ ['"']) ++ rest)).map
              (fun p => (Json.str (String.mk p.1), p.2)) from rfl]
        have hl : (s.data.flatMap escChar ++ ['"']) ++ rest =
            s.data.flatMap escChar ++ '"' :: rest := by simp
        rw [hl, parseStrAux_render s.data rest]
        simp [stringMk_data]
      | arr l =>
        cases l with
        | nil => exact rfl
        | cons v vs =>
          have hb : needVal v ≤ fuel ∧ needTail vs ≤ fuel := by
            rw [show needVal (.arr (v :: vs)) =
              1 + needVal v + needTail vs from rfl] at hf
            omega
          obtain ⟨c, cs, hv, hc⟩ := render_head_spec v
          show parseVal (fuel + 1)
            (('[' :: (render v ++ renderArrTail vs)) ++ rest) =
              some (Json.arr (v :: vs), rest)
          rw [List.cons_append, List.append_assoc,
            show ∀ cs0, parseVal (fuel + 1) ('[' :: cs0) =
              (match cs0 with
               | [] => none
               | c2 :: r2 =>
                 if c2 = ']' then some (Json.arr [], r2)
                 else
                   match parseVal fuel cs0 with
                   | some (v1, r1) =>
                     match parseArrTail fuel r1 with
                     | some (vs1, rr) => some (Json.arr (v1 :: vs1), rr)
                     | none => none
                   | none => none) from fun _ => rfl,
            hv, List.cons_append]
          dsimp only
          rw [if_neg hc, ← List.cons_append, ← hv,
            ihv v _ hb.1 (noDigitHead_renderArrTail vs rest)]
          dsimp only
          rw [iht vs rest hb.2 hrest]
      | obj l =>
        cases l with
        | nil => exact rfl
        | cons kv kvs =>
          obtain ⟨k, v⟩ := kv
          have hb : needVal v ≤ fuel ∧ needMems kvs ≤ fuel := by
            rw [show needVal (.obj ((k, v) :: kvs)) =
              1 + needVal v + needMems kvs from rfl] at hf
            omega
          show parseVal (fuel + 1)
            ((lbrace :: (renderKey k ++ ':' :: render v ++
              renderObjTail kvs)) ++ rest) =
              some (Json.obj ((k, v) :: kvs), rest)
          rw [List.cons_append,
            show ∀ cs0, parseVal (fuel + 1) (lbrace :: cs0) =
              (match cs0 with
               | [] => none
               | c2 :: r2 =>
                 if c2 = rbrace then some (Json.obj [], r2)
                 else if c2 = '"' then
                   match parseStrAux r2 with
                   | some (k1, r3) =>
                     match r3 with
                     | [] => none
                     | c3 :: r4 =>
                       if c3 = ':' then
                         match parseVal fuel r4 with
                         | some (v1, r5) =>
                           match parseObjTail fuel r5 with
                           | some (kvs1, r6) =>
                             some (Json.obj ((String.mk k1, v1) :: kvs1), r6)
                           | none => none
                         | none => none
                       else none
                   | none => none
                 else none) from fun _ => rfl]
          have hkey : (renderKey k ++ ':' :: render v ++
              renderObjTail kvs) ++ rest =
            '"' :: (k.data.flatMap escChar ++
              '"' :: ':' :: (render v ++ (renderObjTail kvs ++ rest))) := by
            simp [renderKey]
          rw [hkey]
          dsimp only
          have hq : ('"' : Char) ≠ rbrace := by decide
          rw [if_neg hq, if_pos rfl,
            parseStrAux_render k.data (':' :: (render v ++
              (renderObjTail kvs ++ rest)))]
          dsimp only
          rw [if_pos rfl, ihv v _ hb.1 (noDigitHead_renderObjTail kvs rest)]
          dsimp only
          rw [ihm kvs rest hb.2 hrest]
    · intro vs rest hf hrest
      cases vs with
      | nil => exact rfl
      | cons v vs2 =>
        have hb : needVal v ≤ fuel ∧ needTail vs2 ≤ fuel := by
          rw [show needTail (v :: vs2) =
            1 + needVal v + needTail vs2 from rfl] at hf
          omega
        show parseArrTail (fuel + 1)
          ((',' :: (render v ++ renderArrTail vs2)) ++ rest) =
            some (v :: vs2, rest)
        rw [List.cons_append, List.append_assoc,
          show ∀ cs0, parseArrTail (fuel + 1) (',' :: cs0) =
            (match parseVal fuel cs0 with
             | some (v1, r1) =>
               match parseArrTail fuel r1 with
               | some (vs1, r2) => some (v1 :: vs1, r2)
               | none => none
             | none => none) from fun _ => rfl,
          ihv v _ hb.1 (noDigitHead_renderArrTail vs2 rest)]
        dsimp only
        rw [iht vs2 rest hb.2 hrest]
    · intro kvs rest hf hrest
      cases kvs with
      | nil => exact rfl
      | cons kv kvs2 =>
        obtain ⟨k, v⟩ := kv
        have hb : needVal v ≤ fuel ∧ needMems kvs2 ≤ fuel := by
          rw [show needMems ((k, v) :: kvs2) =
            1 + needVal v + needMems kvs2 from rfl] at hf
          omega
        show parseObjTail (fuel + 1)
          ((',' :: (renderKey k ++ ':' :: render v ++
            renderObjTail kvs2)) ++ rest) =
            some ((k, v) :: kvs2, rest)
        rw [List.cons_append,
          show ∀ cs0, parseObjTail (fuel + 1) (',' :: cs0) =
            (match cs0 with
             | [] => none
             | c2 :: r2 =>
               if c2 = '"' then
                 match parseStrAux r2 with
                 | some (k1, r3) =>
                   match r3 with
                   | [] => none
                   | c3 :: r4 =>
                     if c3 = ':' then
                       match parseVal fuel r4 with
                       | some (v1, r5) =>
                         match parseObjTail fuel r5 with
                         | some (kvs1, r6) =>
                           some ((String.mk k1, v1) :: kvs1, r6)
                         | none => none
                       | none => none
                     else none
                 | none => none
               else none) from fun _ => rfl]
        have hkey : (renderKey k ++ ':' :: render v ++
            renderObjTail kvs2) ++ rest =
          '"' :: (k.data.flatMap escChar ++
            '"' :: ':' :: (render v ++ (renderObjTail kvs2 ++ rest))) := by
          simp [renderKey]
        rw [hkey]
        dsimp only
        rw [if_pos rfl,
          parseStrAux_render k.data (':' :: (render v ++
            (renderObjTail kvs2 ++ rest)))]
        dsimp only
        rw [if_pos rfl, ihv v _ hb.1 (noDigitHead_renderObjTail kvs2 rest)]
        dsimp only
        rw [ihm kvs2 rest hb.2 hrest]

mutual

theorem needVal_le_renderLen : (v : Json) → needVal v ≤ (render v).length
  | .null => by decide
  | .bool b => by cases b <;> decide
  | .num i => by
    rw [show needVal (.num i) = 1 from rfl,
      show render (.num i) = renderInt i from rfl, renderInt]
    by_cases hi : i < 0
    · rw [if_pos hi]
      simp
    · rw [if_neg hi]
      obtain ⟨d, cs, hn, _⟩ := renderNat_head_digit i.toNat
      rw [hn]
      simp
  | .str s => by
    rw [show needVal (.str s) = 1 from rfl,
      show render (.str s) = renderKey s from rfl, renderKey]
    simp
  | .arr [] => by decide
  | .arr (v :: vs) => by
    have h1 := needVal_le_renderLen v
    have h2 := needTail_le_renderLen vs
    rw [show needVal (.arr (v :: vs)) = 1 + needVal v + needTail vs from rfl,
      show render (.arr (v :: vs)) =
        '[' :: (render v ++ renderArrTail vs) from rfl]
    simp only [List.length_cons, List.length_append]
    omega
  | .obj [] => by decide
  | .obj ((k, v) :: kvs) => by
    have h1 := needVal_le_renderLen v
    have h2 := needMems_le_renderLen kvs
    rw [show needVal (.obj ((k, v) :: kvs)) =
        1 + needVal v + needMems kvs from rfl,
      show render (.obj ((k, v) :: kvs)) =
        lbrace :: (renderKey k ++ ':' :: render v ++
          renderObjTail kvs) from rfl]
    simp only [List.length_cons, List.length_append]
    omega

theorem needTail_le_renderLen :
    (vs : List Json) → needTail vs ≤ (renderArrTail vs).length
  | [] => by decide
  | v :: vs => by
    have h1 := needVal_le_renderLen v
    have h2 := needTail_le_renderLen vs
    rw [show needTail (v :: vs) = 1 + needVal v + needTail vs from rfl,
      show renderArrTail (v :: vs) =
        ',' :: (render v ++ renderArrTail vs) from rfl]
    simp only [List.length_cons, List.length_append]
    omega

theorem needMems_le_renderLen :
    (kvs : List (String × Json)) → needMems kvs ≤ (renderObjTail kvs).length
  | [] => by decide
  | (k, v) :: kvs => by
    have h1 := needVal_le_renderLen v
    have h2 := needMems_le_renderLen kvs
    rw [show needMems ((k, v) :: kvs) = 1 + needVal v + needMems kvs from rfl,
      show renderObjTail ((k, v) :: kvs) =
        ',' :: (renderKey k ++ ':' :: render v ++
          renderObjTail kvs) from rfl]
    simp only [List.length_cons, List.length_append]
    omega

end

/-- The `JSON.parse` model inverts the renderer on every JSON value. -/
theorem Json.parse_render (v : Json) :
    Json.parse (Json.renderString v) = some v := by
  have h := (parse_render_rt ((render v).length + 1)).1 v []
    (by have := needVal_le_renderLen v; omega) noDigitHead_nil
  rw [List.append_nil] at h
  unfold Json.parse Json.renderString
  rw [show (String.mk (render v)).data = render v from rfl, h]

/-! ## Claim theorems: frame parser -/

/-- C7: for every event name `E` and JSON payload `P`, the Socket.IO event
frame `"42" ++ JSON.stringify [E, P]` parses to an event frame carrying
event name `E` and data `[P]`. -/
theorem c7_frame_roundtrip (E : String) (P : Json) :
    parseFrame ("42" ++ Json.renderString (Json.arr [Json.str E, P])) =
      some { type := FrameType.event, event := some E, data := some [P] } := by
  have hdata : ("42" ++ Json.renderString (Json.arr [Json.str E, P])).data =
      '4' :: '2' :: render (Json.arr [Json.str E, P]) := by
    rw [String.data_append]
    rfl
  unfold parseFrame
  rw [hdata]
  have harr : render (Json.arr [Json.str E, P]) =
      '[' :: (render (Json.str E) ++ renderArrTail [P]) := rfl
  rw [harr]
  rw [show ∀ Y : List Char, parseFrameAux ('4' :: '2' :: '[' :: Y) =
      (match Json.parse (String.mk ('[' :: Y)) with
       | some (Json.arr l) =>
         match l with
         | [] => some { type := .event, event := some "undefined",
                        data := some [] }
         | e :: ds => some { type := .event, event := some (jsToString e),
                             data := some ds }
       | some _ => none
       | none => none) from fun _ => rfl]
  rw [← harr]
  have hp : Json.parse (String.mk (render (Json.arr [Json.str E, P]))) =
      some (Json.arr [Json.str E, P]) := Json.parse_render _
  rw [hp]
  rfl


/-- C8: a frame whose first character is the message digit `4` and whose
second character is neither `2` nor `3` parses to the `other` frame,
regardless of the rest of the frame. -/
theorem c8_unknown_type_other (raw : String) (c : Char) (rest : List Char)
    (hdata : raw.data = '4' :: c :: rest) (h2 : c ≠ '2') (h3 : c ≠ '3') :
    parseFrame raw = some { type := FrameType.other } := by
  unfold parseFrame
  rw [hdata, parseFrameAux.eq_def]
  simp [h2, h3]

/-- Witness for C8 at the concrete frame `"45abc"`. -/
theorem c8_unknown_type_other_witness :
    parseFrame "45abc" = some { type := FrameType.other } :=
  c8_unknown_type_other "45abc" '5' ['a', 'b', 'c'] rfl (by decide) (by decide)

/-! ## Structural lemmas about the differencer -/

theorem mapSet_keys (m : List (String × CardSummary)) (c : CardSummary) :
    (mapSet m c).map Prod.fst = m.map Prod.fst ∨
      (mapSet m c).map Prod.fst = m.map Prod.fst ++ [c.uuid] := by
  unfold mapSet
  split
  · left
    rw [List.map_map]
    apply List.map_congr_left
    intro kv _
    by_cases h : kv.1 = c.uuid
    · simp [h]
    · simp [h]
  · right
    simp

theorem byUuid_keys_sub (cards : List CardSummary) :
    ∀ kv ∈ byUuid cards, kv.1 ∈ uuids cards := by
  unfold byUuid
  suffices h : ∀ (cs : List CardSummary) (acc : List (String × CardSummary)),
      ∀ kv ∈ cs.foldl mapSet acc,
        kv.1 ∈ acc.map Prod.fst ∨ kv.1 ∈ uuids cs by
    intro kv hkv
    rcases h cards [] kv hkv with h1 | h1
    · simp at h1
    · exact h1
  intro cs
  induction cs with
  | nil =>
    intro acc kv hkv
    left
    exact List.mem_map_of_mem _ hkv
  | cons c cs2 ih =>
    intro acc kv hkv
    rcases ih (mapSet acc c) kv hkv with h1 | h1
    · rcases mapSet_keys acc c with hk | hk
      · rw [hk] at h1
        left
        exact h1
      · rw [hk] at h1
        rcases List.mem_append.mp h1 with h2 | h2
        · left
          exact h2
        · right
          simp at h2
          simp [uuids, h2]
    · right
      simp [uuids] at h1 ⊢
      tauto

theorem byUuid_keys_nodup (cards : List CardSummary) :
    ((byUuid cards).map Prod.fst).Nodup := by
  unfold byUuid
  suffices h : ∀ (cs : List CardSummary) (acc : List (String × CardSummary)),
      (acc.map Prod.fst).Nodup → ((cs.foldl mapSet acc).map Prod.fst).Nodup by
    exact h cards [] (by simp)
  intro cs
  induction cs with
  | nil => intro acc h; exact h
  | cons c cs2 ih =>
    intro acc hacc
    apply ih
    unfold mapSet
    split
    · rw [List.map_map]
      have : (Prod.fst ∘ fun kv : String × CardSummary =>
          if kv.1 = c.uuid then (c.uuid, c) else kv) = Prod.fst := by
        funext kv
        by_cases h : kv.1 = c.uuid
        · simp [h]
        · simp [h]
      rw [this]
      exact hacc
    · next hnone =>
      rw [List.map_append]
      simp only [List.map_cons, List.map_nil]
      apply List.Nodup.append hacc (by simp)
      intro a ha hb
      simp at hb
      subst hb
      apply hnone
      rw [List.any_eq_true]
      obtain ⟨kv, hkv, hkv2⟩ := List.mem_map.mp ha
      exact ⟨kv, hkv, by simp [hkv2]⟩

theorem byUuid_of_nodup (cards : List CardSummary)
    (h : (uuids cards).Nodup) :
    byUuid cards = cards.map (fun c => (c.uuid, c)) := by
  unfold byUuid
  suffices hs : ∀ (cs : List CardSummary) (acc : List (String × CardSummary)),
      (∀ x ∈ cs, ¬ acc.any (fun kv => kv.1 = x.uuid) = true) →
      (uuids cs).Nodup →
      cs.foldl mapSet acc = acc ++ cs.map (fun c => (c.uuid, c)) by
    have := hs cards [] (by simp) h
    simpa using this
  intro cs
  induction cs with
  | nil => intro acc _ _; simp
  | cons c cs2 ih =>
    intro acc hacc hnd
    have hstep : mapSet acc c = acc ++ [(c.uuid, c)] := by
      unfold mapSet
      rw [if_neg (hacc c (by simp))]
    simp only [List.foldl_cons, hstep]
    rw [ih (acc ++ [(c.uuid, c)]) ?_ ?_]
    · simp
    · intro x hx
      intro hany
      rw [List.any_eq_true] at hany
      obtain ⟨kv, hkv, hkv2⟩ := hany
      rcases List.mem_append.mp hkv with h1 | h1
      · exact hacc x (by simp [hx]) (List.any_eq_true.mpr ⟨kv, h1, hkv2⟩)
      · simp at h1
        rw [h1] at hkv2
        simp at hkv2
        rw [show (uuids (c :: cs2)) = c.uuid :: uuids cs2 from rfl,
          List.nodup_cons] at hnd
        exact hnd.1 (hkv2 ▸ List.mem_map_of_mem _ hx)
    · rw [show (uuids (c :: cs2)) = c.uuid :: uuids cs2 from rfl,
        List.nodup_cons] at hnd
      exact hnd.2

theorem playedEntry_spec (ctx : DiffContext) (pid pname : String)
    (piles0 piles1 : CardPiles) (kv : String × CardSummary)
    (te : Option String × CardEvent)
    (h : playedEntry ctx pid pname piles0 piles1 kv = some te) :
    te.1 = some kv.1 ∧ te.2.metric = GameCardMetric.played ∧
      te.2.playerId = pid ∧
      (arenaMove piles0 piles1 kv.1 ∨
        (¬ arenaMove piles0 piles1 kv.1 ∧ ¬ resMove piles0 piles1 kv.1 ∧
          discMove piles0 piles1 kv.1)) := by
  unfold playedEntry at h
  split_ifs at h with h1 h2 h3
  · injection h with h
    subst h
    exact ⟨rfl, rfl, rfl, Or.inl h1⟩
  · cases hfind : ((byUuid piles1.discard).find? (fun dv => dv.1 = kv.1)).map
        (fun dv => dv.2) with
    | some c2 =>
      rw [hfind] at h
      injection h with h
      subst h
      exact ⟨rfl, rfl, rfl, Or.inr ⟨h1, h2, h3⟩⟩
    | none =>
      rw [hfind] at h
      cases h

theorem resourcedEntry_spec (ctx : DiffContext) (pid pname : String)
    (piles0 piles1 : CardPiles) (kv : String × CardSummary)
    (te : Option String × CardEvent)
    (h : resourcedEntry ctx pid pname piles0 piles1 kv = some te) :
    te.1 = some kv.1 ∧ te.2.metric = GameCardMetric.resourced ∧
      te.2.playerId = pid ∧ resMove piles0 piles1 kv.1 := by
  unfold resourcedEntry at h
  split_ifs at h with h1
  injection h with h
  subst h
  exact ⟨rfl, rfl, rfl, h1⟩

theorem discardedEntry_spec (ctx : DiffContext) (pid pname : String)
    (piles0 piles1 : CardPiles) (kv : String × CardSummary)
    (te : Option String × CardEvent)
    (h : discardedEntry ctx pid pname piles0 piles1 kv = some te) :
    te.1 = some kv.1 ∧ te.2.metric = GameCardMetric.discarded ∧
      te.2.playerId = pid ∧ ¬ kv.1 ∈ uuids piles0.discard ∧
      ¬ kv.1 ∈ playedToDiscardOf piles0 piles1 := by
  unfold discardedEntry at h
  split_ifs at h with h1
  injection h with h
  subst h
  exact ⟨rfl, rfl, rfl, h1.1, h1.2⟩

theorem mem_drawnEvents_spec (ctx : DiffContext) (pid pname : String)
    (piles0 piles1 : CardPiles) (deck0 deck1 : Option Nat)
    (te : Option String × CardEvent)
    (h : te ∈ drawnEvents ctx pid pname piles0 piles1 deck0 deck1) :
    te.2.metric = GameCardMetric.drawn ∧ te.2.playerId = pid := by
  simp only [drawnEvents] at h
  split_ifs at h with h1 h2
  · obtain ⟨c, _, hc⟩ := List.mem_map.mp h
    subst hc
    exact ⟨rfl, rfl⟩
  · simp at h
    subst h
    exact ⟨rfl, rfl⟩
  · cases h

theorem drawnEvents_nil (ctx : DiffContext) (pid pname : String)
    (piles0 piles1 : CardPiles) (deck0 deck1 : Option Nat)
    (h : (deck0.getD 0 : Int) ≤ (deck1.getD 0 : Int)) :
    drawnEvents ctx pid pname piles0 piles1 deck0 deck1 = [] := by
  unfold drawnEvents
  rw [if_neg (by omega)]

/-- Every event produced for one player of the diff loop carries that
player's id. -/
theorem mem_diffPlayer_playerId (prev next : IGameState) (ctx : DiffContext)
    (k : String) (te : Option String × CardEvent)
    (h : te ∈ diffPlayer prev next ctx k) : te.2.playerId = k := by
  unfold diffPlayer at h
  split_ifs at h
  case pos => simp at h
  case neg =>
  split at h
  case _ p0 p1 =>
    split at h
    case _ piles0 piles1 =>
      unfold diffCore at h
      rcases List.mem_append.mp h with h4 | h4
      · rcases List.mem_append.mp h4 with h5 | h5
        · rcases List.mem_append.mp h5 with h6 | h6
          · obtain ⟨kv, _, hf⟩ := List.mem_filterMap.mp h6
            exact (playedEntry_spec _ _ _ _ _ kv te hf).2.2.1
          · obtain ⟨kv, _, hf⟩ := List.mem_filterMap.mp h6
            exact (resourcedEntry_spec _ _ _ _ _ kv te hf).2.2.1
        · obtain ⟨kv, _, hf⟩ := List.mem_filterMap.mp h5
          exact (discardedEntry_spec _ _ _ _ _ kv te hf).2.2.1
      · exact (mem_drawnEvents_spec _ _ _ _ _ _ _ te h4).2
    case _ => simp_all
  case _ => simp_all

/-- When the deck count did not strictly decrease, the diff body for that
player contains no drawn event. -/
theorem diffPlayer_no_drawn (prev next : IGameState) (ctx : DiffContext)
    (pid : String) (p0 p1 : PlayerStateSummary)
    (hp0 : plook prev.players pid = some p0)
    (hp1 : plook next.players pid = some p1)
    (hdeck : (p0.numCardsInDeck.getD 0 : Int) ≤ (p1.numCardsInDeck.getD 0 : Int))
    (te : Option String × CardEvent)
    (hmem : te ∈ diffPlayer prev next ctx pid) :
    te.2.metric ≠ GameCardMetric.drawn := by
  unfold diffPlayer at hmem
  split_ifs at hmem
  case pos => simp at hmem
  case neg =>
  rw [hp0, hp1] at hmem
  dsimp only at hmem
  split at hmem
  case _ piles0 piles1 hq0 hq1 =>
    unfold diffCore at hmem
    rw [drawnEvents_nil ctx pid p1.name piles0 piles1
      p0.numCardsInDeck p1.numCardsInDeck hdeck, List.append_nil] at hmem
    rcases List.mem_append.mp hmem with h5 | h5
    · rcases List.mem_append.mp h5 with h6 | h6
      · obtain ⟨kv, _, hf⟩ := List.mem_filterMap.mp h6
        rw [(playedEntry_spec _ _ _ _ _ kv te hf).2.1]
        decide
      · obtain ⟨kv, _, hf⟩ := List.mem_filterMap.mp h6
        rw [(resourcedEntry_spec _ _ _ _ _ kv te hf).2.1]
        decide
    · obtain ⟨kv, _, hf⟩ := List.mem_filterMap.mp h5
      rw [(discardedEntry_spec _ _ _ _ _ kv te hf).2.1]
      decide
  case _ => simp_all

/-- C9: `diffSnapshots` emits drawn events for a player only when that
player's deck count strictly decreased; if it stayed the same or grew, no
drawn event for that player appears in the call's output. -/
theorem c9_drawn_requires_deck_decrease (prev next : IGameState)
    (ctx : DiffContext) (pid : String) (p0 p1 : PlayerStateSummary)
    (hp0 : plook prev.players pid = some p0)
    (hp1 : plook next.players pid = some p1)
    (hdeck :
      (p0.numCardsInDeck.getD 0 : Int) ≤ (p1.numCardsInDeck.getD 0 : Int)) :
    (diffSnapshots prev next ctx).filter
      (fun e => e.metric == GameCardMetric.drawn && e.playerId == pid) = [] := by
  unfold diffSnapshots
  rw [List.filter_map, List.map_eq_nil_iff, List.filter_eq_nil_iff]
  intro te hte
  obtain ⟨k, _, hmem⟩ := List.mem_flatMap.mp hte
  simp only [Function.comp_apply, Bool.and_eq_true, beq_iff_eq]
  rintro ⟨hmetric, hplayer⟩
  have hkpid : te.2.playerId = k := mem_diffPlayer_playerId prev next ctx k te hmem
  rw [hkpid] at hplayer
  subst hplayer
  exact diffPlayer_no_drawn prev next ctx k p0 p1 hp0 hp1 hdeck te hmem hmetric

/-- When a player key occurs exactly once, filtering the whole diff by a
predicate that forces that player's id picks out exactly that player's
block. -/
theorem filter_diffTagged_of_count_one (prev next : IGameState)
    (ctx : DiffContext) (pid : String)
    (pred : Option String × CardEvent → Bool)
    (hdup : (next.players.map Prod.fst).count pid = 1)
    (hpred : ∀ te, pred te = true → te.2.playerId = pid) :
    (diffTagged prev next ctx).filter pred =
      (diffPlayer prev next ctx pid).filter pred := by
  unfold diffTagged
  suffices h : ∀ ks : List String, ks.count pid = 1 →
      (ks.flatMap (diffPlayer prev next ctx)).filter pred =
        (diffPlayer prev next ctx pid).filter pred from h _ hdup
  intro ks
  induction ks with
  | nil => intro h; simp at h
  | cons k ks ih =>
    intro hcount
    rw [List.flatMap_cons, List.filter_append]
    by_cases hk : k = pid
    · subst hk
      have hc0 : ks.count k = 0 := by
        rw [List.count_cons_self] at hcount
        omega
      have hrest : (ks.flatMap (diffPlayer prev next ctx)).filter pred = [] := by
        rw [List.filter_eq_nil_iff]
        intro te hte hp
        obtain ⟨k2, hk2, hmem⟩ := List.mem_flatMap.mp hte
        have h1 := mem_diffPlayer_playerId prev next ctx k2 te hmem
        have h2 := hpred te hp
        rw [h1] at h2
        subst h2
        rw [List.count_eq_zero] at hc0
        exact hc0 hk2
      rw [hrest, List.append_nil]
    · have hhead : (diffPlayer prev next ctx k).filter pred = [] := by
        rw [List.filter_eq_nil_iff]
        intro te hte hp
        have h1 := mem_diffPlayer_playerId prev next ctx k te hte
        have h2 := hpred te hp
        rw [h1] at h2
        exact hk h2
      rw [hhead, List.nil_append]
      apply ih
      rw [List.count_cons,
        if_neg (show ¬ ((k == pid) = true) by simp [hk])] at hcount
      omega

/-- Under the guards' hypotheses the player's diff block is `diffCore`. -/
theorem diffPlayer_eq_core (prev next : IGameState) (ctx : DiffContext)
    (pid : String) (p0 p1 : PlayerStateSummary) (piles0 piles1 : CardPiles)
    (hctx : ctx.localPlayerId = none ∨ ctx.localPlayerId = some pid)
    (hp0 : plook prev.players pid = some p0)
    (hp1 : plook next.players pid = some p1)
    (hpl0 : p0.cardPiles = some piles0)
    (hpl1 : p1.cardPiles = some piles1) :
    diffPlayer prev next ctx pid =
      diffCore ctx pid p1.name piles0 piles1
        p0.numCardsInDeck p1.numCardsInDeck := by
  unfold diffPlayer
  rw [if_neg ?_]
  · rw [hp0, hp1]
    dsimp only
    rw [hpl0, hpl1]
  · rcases hctx with h | h
    · rw [h]
      simp [jsTruthy]
    · rw [h]
      simp

theorem leftHand_keys_nodup (piles0 piles1 : CardPiles) :
    ((leftHandOf piles0 piles1).map Prod.fst).Nodup := by
  unfold leftHandOf
  exact ((List.filter_sublist _).map Prod.fst).nodup (byUuid_keys_nodup piles0.hand)

theorem mem_leftHand (piles0 piles1 : CardPiles) (c : CardSummary)
    (hnodup : (uuids piles0.hand).Nodup) (hhand : c ∈ piles0.hand)
    (hgone : c.uuid ∉ uuids piles1.hand) :
    (c.uuid, c) ∈ leftHandOf piles0 piles1 := by
  unfold leftHandOf
  rw [byUuid_of_nodup piles0.hand hnodup]
  apply List.mem_filter.mpr
  refine ⟨List.mem_map.mpr ⟨c, hhand, rfl⟩, by simp [hgone]⟩

/-- Events of a list all carrying one metric are dropped by a predicate
demanding a different metric. -/
theorem filter_kill_metric (l : List (Option String × CardEvent))
    (m : GameCardMetric) (pred : Option String × CardEvent → Bool)
    (h1 : ∀ te ∈ l, te.2.metric = m)
    (h2 : ∀ te, pred te = true → te.2.metric ≠ m) : l.filter pred = [] := by
  rw [List.filter_eq_nil_iff]
  intro te hte hp
  exact h2 te hp (h1 te hte)

theorem mem_playedEvents_metric (ctx : DiffContext) (pid pname : String)
    (piles0 piles1 : CardPiles) (te : Option String × CardEvent)
    (hte : te ∈ playedEvents ctx pid pname piles0 piles1) :
    te.2.metric = GameCardMetric.played := by
  obtain ⟨kv, _, hf⟩ := List.mem_filterMap.mp hte
  exact (playedEntry_spec _ _ _ _ _ kv te hf).2.1

theorem mem_resourcedEvents_metric (ctx : DiffContext) (pid pname : String)
    (piles0 piles1 : CardPiles) (te : Option String × CardEvent)
    (hte : te ∈ resourcedEvents ctx pid pname piles0 piles1) :
    te.2.metric = GameCardMetric.resourced := by
  obtain ⟨kv, _, hf⟩ := List.mem_filterMap.mp hte
  exact (resourcedEntry_spec _ _ _ _ _ kv te hf).2.1

theorem mem_discardedEvents_metric (ctx : DiffContext) (pid pname : String)
    (piles0 piles1 : CardPiles) (te : Option String × CardEvent)
    (hte : te ∈ discardedEvents ctx pid pname piles0 piles1) :
    te.2.metric = GameCardMetric.discarded := by
  obtain ⟨kv, _, hf⟩ := List.mem_filterMap.mp hte
  exact (discardedEntry_spec _ _ _ _ _ kv te hf).2.1

/-- Played-entry outputs keep the key of the entry they came from, so
entries whose key differs from `u` never produce a `u`-tagged event. -/
theorem playedEvents_side_nil (ctx : DiffContext) (pid pname : String)
    (piles0 piles1 : CardPiles) (u : String)
    (pred : Option String × CardEvent → Bool)
    (hpred : ∀ te, pred te = true → te.1 = some u)
    (L : List (String × CardSummary)) (hL : u ∉ L.map Prod.fst) :
    (L.filterMap (playedEntry ctx pid pname piles0 piles1)).filter pred
      = [] := by
  rw [List.filter_eq_nil_iff]
  intro te hte hp
  obtain ⟨kv, hkv, hf⟩ := List.mem_filterMap.mp hte
  have htag := (playedEntry_spec _ _ _ _ _ kv te hf).1
  have := hpred te hp
  rw [htag] at this
  injection this with this
  exact hL (this ▸ List.mem_map_of_mem Prod.fst hkv)

/-- C2 (amended): for a diffed player whose key occurs once, a card uuid
moving from hand to arena — and not also newly present in that player's
resources or discard — yields exactly one played event and no discarded or
resourced event for that uuid; and, for any uuid not present in both the
next arena and the next discard, a played event and a discarded event for
that uuid are never both emitted for that player.  The first conjunct ties
the tagged diff to the source function's output. -/
theorem c2_played_exclusive_amended
    (prev next : IGameState) (ctx : DiffContext) (pid : String)
    (p0 p1 : PlayerStateSummary) (piles0 piles1 : CardPiles) (c : CardSummary)
    (hdup : (next.players.map Prod.fst).count pid = 1)
    (hctx : ctx.localPlayerId = none ∨ ctx.localPlayerId = some pid)
    (hp0 : plook prev.players pid = some p0)
    (hp1 : plook next.players pid = some p1)
    (hpl0 : p0.cardPiles = some piles0)
    (hpl1 : p1.cardPiles = some piles1)
    (hnodup : (uuids piles0.hand).Nodup)
    (hhand : c ∈ piles0.hand)
    (hgone : c.uuid ∉ uuids piles1.hand)
    (harena0 : c.uuid ∉ uuids (allArena piles0))
    (harena1 : c.uuid ∈ uuids (allArena piles1))
    (hres : c.uuid ∉ uuids piles1.resources ∨ c.uuid ∈ uuids piles0.resources)
    (hdisc :
      c.uuid ∉ uuids piles1.discard ∨ c.uuid ∈ uuids piles0.discard) :
    diffSnapshots prev next ctx = (diffTagged prev next ctx).map Prod.snd ∧
    ((diffTagged prev next ctx).filter (fun te =>
        te.1 == some c.uuid && te.2.playerId == pid &&
          te.2.metric == GameCardMetric.played)).length = 1 ∧
    ((diffTagged prev next ctx).filter (fun te =>
        te.1 == some c.uuid && te.2.playerId == pid &&
          (te.2.metric == GameCardMetric.discarded ||
            te.2.metric == GameCardMetric.resourced))) = [] ∧
    (∀ u : String,
      (u ∉ uuids (allArena piles1) ∨ u ∉ uuids piles1.discard) →
      ¬(0 < ((diffTagged prev next ctx).filter (fun te =>
            te.1 == some u && te.2.playerId == pid &&
              te.2.metric == GameCardMetric.played)).length ∧
        0 < ((diffTagged prev next ctx).filter (fun te =>
            te.1 == some u && te.2.playerId == pid &&
              te.2.metric == GameCardMetric.discarded)).length)) := by
  have hcore := diffPlayer_eq_core prev next ctx pid p0 p1 piles0 piles1
    hctx hp0 hp1 hpl0 hpl1
  have hred : ∀ pred : Option String × CardEvent → Bool,
      (∀ te, pred te = true → te.2.playerId = pid) →
      (diffTagged prev next ctx).filter pred =
        (diffCore ctx pid p1.name piles0 piles1
          p0.numCardsInDeck p1.numCardsInDeck).filter pred := by
    intro pred hpred
    rw [filter_diffTagged_of_count_one prev next ctx pid pred hdup hpred,
      hcore]
  refine ⟨rfl, ?_, ?_, ?_⟩
  · -- exactly one played event tagged with this uuid
    rw [hred _ (by
      intro te hp
      simp only [Bool.and_eq_true, beq_iff_eq] at hp
      exact hp.1.2)]
    unfold diffCore
    rw [List.filter_append, List.filter_append, List.filter_append]
    have hR := filter_kill_metric
      (resourcedEvents ctx pid p1.name piles0 piles1) .resourced
      (fun te : Option String × CardEvent =>
        te.1 == some c.uuid && te.2.playerId == pid &&
          te.2.metric == GameCardMetric.played)
      (mem_resourcedEvents_metric ctx pid p1.name piles0 piles1)
      (by
        intro te hp
        simp only [Bool.and_eq_true, beq_iff_eq] at hp
        rw [hp.2]
        decide)
    have hD := filter_kill_metric
      (discardedEvents ctx pid p1.name piles0 piles1) .discarded
      (fun te : Option String × CardEvent =>
        te.1 == some c.uuid && te.2.playerId == pid &&
          te.2.metric == GameCardMetric.played)
      (mem_discardedEvents_metric ctx pid p1.name piles0 piles1)
      (by
        intro te hp
        simp only [Bool.and_eq_true, beq_iff_eq] at hp
        rw [hp.2]
        decide)
    have hW := filter_kill_metric
      (drawnEvents ctx pid p1.name piles0 piles1
        p0.numCardsInDeck p1.numCardsInDeck) .drawn
      (fun te : Option String × CardEvent =>
        te.1 == some c.uuid && te.2.playerId == pid &&
          te.2.metric == GameCardMetric.played)
      (fun te hte =>
        (mem_drawnEvents_spec ctx pid p1.name piles0 piles1 _ _ te hte).1)
      (by
        intro te hp
        simp only [Bool.and_eq_true, beq_iff_eq] at hp
        rw [hp.2]
        decide)
    rw [hR, hD, hW]
    obtain ⟨L1, L2, hsplit⟩ :=
      List.append_of_mem (mem_leftHand piles0 piles1 c hnodup hhand hgone)
    have hnd := leftHand_keys_nodup piles0 piles1
    rw [hsplit, List.map_append, List.map_cons, List.nodup_append] at hnd
    obtain ⟨hnd1, hnd2, hdisj⟩ := hnd
    have hc1 : c.uuid ∉ L1.map Prod.fst := fun hin => hdisj hin (by simp)
    have hc2 : c.uuid ∉ L2.map Prod.fst := by
      rw [List.nodup_cons] at hnd2
      exact hnd2.1
    unfold playedEvents
    rw [hsplit, List.filterMap_append, List.filterMap_cons]
    have hpeX : playedEntry ctx pid p1.name piles0 piles1 (c.uuid, c) =
        some (some c.uuid, diffMkEv ctx pid p1.name c .played 1) := by
      unfold playedEntry
      rw [if_pos (show arenaMove piles0 piles1 (c.uuid, c).1 from
        ⟨harena0, harena1⟩)]
    rw [hpeX, List.filter_append, List.filter_cons]
    have htagpred : ∀ te : Option String × CardEvent,
        (te.1 == some c.uuid && te.2.playerId == pid &&
          te.2.metric == GameCardMetric.played) = true →
        te.1 = some c.uuid := by
      intro te hp
      simp only [Bool.and_eq_true, beq_iff_eq] at hp
      exact hp.1.1
    rw [playedEvents_side_nil ctx pid p1.name piles0 piles1 c.uuid _
        htagpred L1 hc1,
      playedEvents_side_nil ctx pid p1.name piles0 piles1 c.uuid _
        htagpred L2 hc2]
    rw [if_pos (by simp [diffMkEv])]
    simp
  · -- no discarded and no resourced event tagged with this uuid
    rw [hred _ (by
      intro te hp
      simp only [Bool.and_eq_true, beq_iff_eq, Bool.or_eq_true] at hp
      exact hp.1.2)]
    unfold diffCore
    rw [List.filter_append, List.filter_append, List.filter_append]
    have hA := filter_kill_metric
      (playedEvents ctx pid p1.name piles0 piles1) .played
      (fun te : Option String × CardEvent =>
        te.1 == some c.uuid && te.2.playerId == pid &&
          (te.2.metric == GameCardMetric.discarded ||
            te.2.metric == GameCardMetric.resourced))
      (mem_playedEvents_metric ctx pid p1.name piles0 piles1)
      (by
        intro te hp
        simp only [Bool.and_eq_true, beq_iff_eq, Bool.or_eq_true] at hp
        rcases hp.2 with h | h <;> (rw [h]; decide))
    have hW := filter_kill_metric
      (drawnEvents ctx pid p1.name piles0 piles1
        p0.numCardsInDeck p1.numCardsInDeck) .drawn
      (fun te : Option String × CardEvent =>
        te.1 == some c.uuid && te.2.playerId == pid &&
          (te.2.metric == GameCardMetric.discarded ||
            te.2.metric == GameCardMetric.resourced))
      (fun te hte =>
        (mem_drawnEvents_spec ctx pid p1.name piles0 piles1 _ _ te hte).1)
      (by
        intro te hp
        simp only [Bool.and_eq_true, beq_iff_eq, Bool.or_eq_true] at hp
        rcases hp.2 with h | h <;> (rw [h]; decide))
    have hRes :
        (resourcedEvents ctx pid p1.name piles0 piles1).filter (fun te =>
          te.1 == some c.uuid && te.2.playerId == pid &&
            (te.2.metric == GameCardMetric.discarded ||
              te.2.metric == GameCardMetric.resourced)) = [] := by
      rw [List.filter_eq_nil_iff]
      intro te hte hp
      obtain ⟨kv, _, hf⟩ := List.mem_filterMap.mp hte
      have hspec := resourcedEntry_spec _ _ _ _ _ kv te hf
      simp only [Bool.and_eq_true, beq_iff_eq, Bool.or_eq_true] at hp
      have htag := hspec.1
      rw [hp.1.1] at htag
      injection htag with htag
      have hmv := hspec.2.2.2
      rw [← htag] at hmv
      rcases hres with h | h
      · exact h hmv.2
      · exact hmv.1 h
    have hDsc :
        (discardedEvents ctx pid p1.name piles0 piles1).filter (fun te =>
          te.1 == some c.uuid && te.2.playerId == pid &&
            (te.2.metric == GameCardMetric.discarded ||
              te.2.metric == GameCardMetric.resourced)) = [] := by
      rw [List.filter_eq_nil_iff]
      intro te hte hp
      obtain ⟨kv, hkv, hf⟩ := List.mem_filterMap.mp hte
      have hspec := discardedEntry_spec _ _ _ _ _ kv te hf
      simp only [Bool.and_eq_true, beq_iff_eq, Bool.or_eq_true] at hp
      have htag := hspec.1
      rw [hp.1.1] at htag
      injection htag with htag
      rcases hdisc with h | h
      · exact h (htag ▸ byUuid_keys_sub piles1.discard kv hkv)
      · exact hspec.2.2.2.1 (htag ▸ h)
    rw [hA, hRes, hDsc, hW]
    rfl
  · -- a played and a discarded event for one uuid never co-occur
    intro u hu
    rintro ⟨hP, hD⟩
    rw [hred _ (by
      intro te hp
      simp only [Bool.and_eq_true, beq_iff_eq] at hp
      exact hp.1.2)] at hP
    rw [hred _ (by
      intro te hp
      simp only [Bool.and_eq_true, beq_iff_eq] at hp
      exact hp.1.2)] at hD
    obtain ⟨tP, htP⟩ := List.exists_mem_of_length_pos hP
    obtain ⟨tD, htD⟩ := List.exists_mem_of_length_pos hD
    obtain ⟨htPm, htPp⟩ := List.mem_filter.mp htP
    obtain ⟨htDm, htDp⟩ := List.mem_filter.mp htD
    simp only [Bool.and_eq_true, beq_iff_eq] at htPp htDp
    -- the played event can only come from the played loop
    have htPA : tP ∈ playedEvents ctx pid p1.name piles0 piles1 := by
      unfold diffCore at htPm
      rcases List.mem_append.mp htPm with h4 | h4
      · rcases List.mem_append.mp h4 with h5 | h5
        · rcases List.mem_append.mp h5 with h6 | h6
          · exact h6
          · have := mem_resourcedEvents_metric _ _ _ _ _ tP h6
            rw [htPp.2] at this
            cases this
        · have := mem_discardedEvents_metric _ _ _ _ _ tP h5
          rw [htPp.2] at this
          cases this
      · have := (mem_drawnEvents_spec _ _ _ _ _ _ _ tP h4).1
        rw [htPp.2] at this
        cases this
    have htDD : tD ∈ discardedEvents ctx pid p1.name piles0 piles1 := by
      unfold diffCore at htDm
      rcases List.mem_append.mp htDm with h4 | h4
      · rcases List.mem_append.mp h4 with h5 | h5
        · rcases List.mem_append.mp h5 with h6 | h6
          · have := mem_playedEvents_metric _ _ _ _ _ tD h6
            rw [htDp.2] at this
            cases this
          · have := mem_resourcedEvents_metric _ _ _ _ _ tD h6
            rw [htDp.2] at this
            cases this
        · exact h5
      · have := (mem_drawnEvents_spec _ _ _ _ _ _ _ tD h4).1
        rw [htDp.2] at this
        cases this
    obtain ⟨kvP, hkvP, hfP⟩ := List.mem_filterMap.mp htPA
    obtain ⟨kvD, hkvD, hfD⟩ := List.mem_filterMap.mp htDD
    have hspecP := playedEntry_spec _ _ _ _ _ kvP tP hfP
    have hspecD := discardedEntry_spec _ _ _ _ _ kvD tD hfD
    have hkvPu : kvP.1 = u := by
      have := hspecP.1
      rw [htPp.1.1] at this
      injection this with this
      exact this.symm
    have hkvDu : kvD.1 = u := by
      have := hspecD.1
      rw [htDp.1.1] at this
      injection this with this
      exact this.symm
    rcases hu with hu | hu
    · rcases hspecP.2.2.2 with harn | hp2d
      · exact hu (hkvPu ▸ harn.2)
      · have hmemPTD : u ∈ playedToDiscardOf piles0 piles1 := by
          unfold playedToDiscardOf
          apply List.mem_map.mpr
          refine ⟨kvP, List.mem_filter.mpr ⟨hkvP, ?_⟩, hkvPu⟩
          simp only [decide_eq_true_eq]
          exact hp2d
        exact hspecD.2.2.2.2 (hkvDu ▸ hmemPTD)
    · exact hu (hkvDu ▸ byUuid_keys_sub piles1.discard kvD hkvD)

/-! ## Concrete inputs for the differencer claims -/

/-- A card instance used by the concrete differencer scenarios. -/
def cardA : CardSummary := { uuid := "u1", id := some "card-a" }

/-- A second card instance used by the concrete differencer scenarios. -/
def cardB : CardSummary := { uuid := "u2", id := some "card-b" }

/-- C1 failing input, previous state: hand `[cardA]`, deck 40. -/
def c1prev : IGameState :=
  { id := "g", players := [("P1",
      { id := "P1", name := "Alice",
        cardPiles := some { hand := [cardA] },
        numCardsInDeck := some 40 })],
    phase := .action }

/-- C1 failing input, next state: hand `[cardA, cardB]` (one new visible
uuid), deck 38 (a decrease of two). -/
def c1next : IGameState :=
  { id := "g", players := [("P1",
      { id := "P1", name := "Alice",
        cardPiles := some { hand := [cardA, cardB] },
        numCardsInDeck := some 38 })],
    phase := .action }

/-- Diff context used by the concrete differencer scenarios. -/
def ctxP1 : DiffContext :=
  { gameId := "g", roundNumber := 1, localPlayerId := some "P1" }

/-- C1 (code bug): the deck count decreases by two, but the emitted drawn
events sum to one — the identified-card branch emits one `count = 1` event
per new hand uuid without reconciling against the deck decrease,
contradicting the differ's own header («Drawn (count) … exact count») and
the specification's draw-count exactness property. -/
theorem c1_drawn_sum_code_bug :
    ((((c1prev.players.map Prod.snd).head?.bind
        PlayerStateSummary.numCardsInDeck).getD 0 : Int) -
      (((c1next.players.map Prod.snd).head?.bind
        PlayerStateSummary.numCardsInDeck).getD 0 : Int) = 2) ∧
    (((diffSnapshots c1prev c1next ctxP1).filter (fun e =>
        e.metric == GameCardMetric.drawn && e.playerId == "P1")).map
      (fun e => e.count)).sum = 1 := by
  decide

/-- C2 counterexample input 1, next state: `u1` left the hand and appears
in both the ground arena and the discard pile. -/
def c2xNextDisc : IGameState :=
  { id := "g", players := [("P1",
      { id := "P1", name := "Alice",
        cardPiles := some { hand := [], groundArena := [cardA],
                            discard := [cardA] },
        numCardsInDeck := some 40 })],
    phase := .action }

/-- C2 counterexample input 2, next state: `u1` left the hand and appears
in both the ground arena and the resources pile. -/
def c2xNextRes : IGameState :=
  { id := "g", players := [("P1",
      { id := "P1", name := "Alice",
        cardPiles := some { hand := [], groundArena := [cardA],
                            resources := [cardA] },
        numCardsInDeck := some 40 })],
    phase := .action }

/-- C2 counterexample shared previous state: `u1` in hand, deck 40. -/
def c2xPrev : IGameState :=
  { id := "g", players := [("P1",
      { id := "P1", name := "Alice",
        cardPiles := some { hand := [cardA] },
        numCardsInDeck := some 40 })],
    phase := .action }

/-- C2 counterexample: when `u1` moves from hand into the arena but the
next snapshot also lists it in the discard pile, `diffSnapshots` emits both
a played and a discarded event for the same uuid (the arena-play branch
never feeds the discard-exclusion set); likewise a played and a resourced
event co-occur when `u1` is listed in both the arena and the resources.
This refutes the claim's unconditional exclusivity. -/
theorem c2_counterexample :
    diffTagged c2xPrev c2xNextDisc ctxP1 =
      [(some "u1",
        { gameId := "g", roundNumber := 1, playerId := "P1",
          playerName := "Alice", cardId := "card-a", cardName := "card-a",
          cardSetId := none, metric := .played, count := 1 }),
       (some "u1",
        { gameId := "g", roundNumber := 1, playerId := "P1",
          playerName := "Alice", cardId := "card-a", cardName := "card-a",
          cardSetId := none, metric := .discarded, count := 1 })] ∧
    diffTagged c2xPrev c2xNextRes ctxP1 =
      [(some "u1",
        { gameId := "g", roundNumber := 1, playerId := "P1",
          playerName := "Alice", cardId := "card-a", cardName := "card-a",
          cardSetId := none, metric := .played, count := 1 }),
       (some "u1",
        { gameId := "g", roundNumber := 1, playerId := "P1",
          playerName := "Alice", cardId := "card-a", cardName := "card-a",
          cardSetId := none, metric := .resourced, count := 1 })] ∧
    diffSnapshots c2xPrev c2xNextDisc ctxP1 =
      (diffTagged c2xPrev c2xNextDisc ctxP1).map Prod.snd := by
  refine ⟨by decide, by decide, rfl⟩

/-- C2 witness input, next state: `u1` moved cleanly from hand to the
ground arena. -/
def c2wNext : IGameState :=
  { id := "g", players := [("P1",
      { id := "P1", name := "Alice",
        cardPiles := some { hand := [], groundArena := [cardA] },
        numCardsInDeck := some 40 })],
    phase := .action }

/-- Witness for the amended C2 at a concrete hand-to-arena play. -/
theorem c2_witness :
    diffSnapshots c2xPrev c2wNext ctxP1 =
      (diffTagged c2xPrev c2wNext ctxP1).map Prod.snd ∧
    ((diffTagged c2xPrev c2wNext ctxP1).filter (fun te =>
        te.1 == some cardA.uuid && te.2.playerId == "P1" &&
          te.2.metric == GameCardMetric.played)).length = 1 ∧
    ((diffTagged c2xPrev c2wNext ctxP1).filter (fun te =>
        te.1 == some cardA.uuid && te.2.playerId == "P1" &&
          (te.2.metric == GameCardMetric.discarded ||
            te.2.metric == GameCardMetric.resourced))) = [] ∧
    (∀ u : String,
      (u ∉ uuids (allArena { hand := [], groundArena := [cardA] }) ∨
        u ∉ uuids (CardPiles.discard { hand := [], groundArena := [cardA] })) →
      ¬(0 < ((diffTagged c2xPrev c2wNext ctxP1).filter (fun te =>
            te.1 == some u && te.2.playerId == "P1" &&
              te.2.metric == GameCardMetric.played)).length ∧
        0 < ((diffTagged c2xPrev c2wNext ctxP1).filter (fun te =>
            te.1 == some u && te.2.playerId == "P1" &&
              te.2.metric == GameCardMetric.discarded)).length)) :=
  c2_played_exclusive_amended c2xPrev c2wNext ctxP1 "P1"
    { id := "P1", name := "Alice",
      cardPiles := some { hand := [cardA] }, numCardsInDeck := some 40 }
    { id := "P1", name := "Alice",
      cardPiles := some { hand := [], groundArena := [cardA] },
      numCardsInDeck := some 40 }
    { hand := [cardA] } { hand := [], groundArena := [cardA] } cardA
    (by decide) (Or.inr rfl) (by decide) (by decide) rfl rfl
    (by decide) (by decide) (by decide) (by decide) (by decide)
    (by decide) (by decide)

/-- C9 witness states: a card returns to hand from discard while the deck
count stays put — no drawn event may be emitted. -/
def c9prev : IGameState :=
  { id := "g", players := [("P1",
      { id := "P1", name := "Alice",
        cardPiles := some { hand := [cardA], discard := [cardB] },
        numCardsInDeck := some 30 })],
    phase := .action }

/-- C9 witness next state: `u2` moved from discard into the hand. -/
def c9next : IGameState :=
  { id := "g", players := [("P1",
      { id := "P1", name := "Alice",
        cardPiles := some { hand := [cardA, cardB] },
        numCardsInDeck := some 30 })],
    phase := .action }

/-- Witness for C9: new hand uuid but no deck decrease — no drawn event. -/
theorem c9_witness :
    (diffSnapshots c9prev c9next ctxP1).filter (fun e =>
      e.metric == GameCardMetric.drawn && e.playerId == "P1") = [] :=
  c9_drawn_requires_deck_decrease c9prev c9next ctxP1 "P1"
    { id := "P1", name := "Alice",
      cardPiles := some { hand := [cardA], discard := [cardB] },
      numCardsInDeck := some 30 }
    { id := "P1", name := "Alice",
      cardPiles := some { hand := [cardA, cardB] },
      numCardsInDeck := some 30 }
    rfl rfl (by decide)

/-! ## Structural lemmas about the recorder's ingest pipeline -/

theorem resolveLocal_completed (rs : RecState) (s : IGameState) :
    (resolveLocal rs s).completed = rs.completed := by
  unfold resolveLocal
  split <;> rfl

theorem resolveLocal_players (rs : RecState) (s : IGameState) :
    (resolveLocal rs s).players = rs.players := by
  unfold resolveLocal
  split <;> rfl

theorem resolveLocal_roundNumber (rs : RecState) (s : IGameState) :
    (resolveLocal rs s).roundNumber = rs.roundNumber := by
  unfold resolveLocal
  split <;> rfl

theorem resolveLocal_snapshots (rs : RecState) (s : IGameState) :
    (resolveLocal rs s).snapshots = rs.snapshots := by
  unfold resolveLocal
  split <;> rfl

theorem resolveLocal_prevPhase (rs : RecState) (s : IGameState) :
    (resolveLocal rs s).prevPhase = rs.prevPhase := by
  unfold resolveLocal
  split <;> rfl

theorem capturePair_completed (rs : RecState) (s : IGameState) :
    (capturePair rs s).completed = rs.completed := by
  unfold capturePair
  dsimp only
  repeat' split
  all_goals rfl

theorem capturePair_roundNumber (rs : RecState) (s : IGameState) :
    (capturePair rs s).roundNumber = rs.roundNumber := by
  unfold capturePair
  dsimp only
  repeat' split
  all_goals rfl

theorem capturePair_snapshots (rs : RecState) (s : IGameState) :
    (capturePair rs s).snapshots = rs.snapshots := by
  unfold capturePair
  dsimp only
  repeat' split
  all_goals rfl

theorem capturePair_prevPhase (rs : RecState) (s : IGameState) :
    (capturePair rs s).prevPhase = rs.prevPhase := by
  unfold capturePair
  dsimp only
  repeat' split
  all_goals rfl

theorem capturePair_players_some (rs : RecState) (s : IGameState)
    (pr : GamePlayer × GamePlayer) (h : rs.players = some pr) :
    (capturePair rs s).players = some pr := by
  unfold capturePair
  rw [if_neg (by simp [h])]
  exact h

theorem capturePair_players_none_of_short (rs : RecState) (s : IGameState)
    (h : rs.players = none) (hk : s.players.length < 2) :
    (capturePair rs s).players = none := by
  unfold capturePair
  rw [if_pos h,
    if_neg (by
      rw [List.length_map]
      omega)]
  exact h

theorem accumulateLogs_completed
    (plog : String → Nat → List IChatEntry → List CardEvent)
    (rs : RecState) (s : IGameState) :
    (accumulateLogs plog rs s).completed = rs.completed := by
  unfold accumulateLogs
  split <;> rfl

theorem accumulateLogs_players
    (plog : String → Nat → List IChatEntry → List CardEvent)
    (rs : RecState) (s : IGameState) :
    (accumulateLogs plog rs s).players = rs.players := by
  unfold accumulateLogs
  split <;> rfl

theorem accumulateLogs_roundNumber
    (plog : String → Nat → List IChatEntry → List CardEvent)
    (rs : RecState) (s : IGameState) :
    (accumulateLogs plog rs s).roundNumber = rs.roundNumber := by
  unfold accumulateLogs
  split <;> rfl

theorem accumulateLogs_snapshots
    (plog : String → Nat → List IChatEntry → List CardEvent)
    (rs : RecState) (s : IGameState) :
    (accumulateLogs plog rs s).snapshots = rs.snapshots := by
  unfold accumulateLogs
  split <;> rfl

theorem accumulateLogs_prevPhase
    (plog : String → Nat → List IChatEntry → List CardEvent)
    (rs : RecState) (s : IGameState) :
    (accumulateLogs plog rs s).prevPhase = rs.prevPhase := by
  unfold accumulateLogs
  split <;> rfl

theorem roundStep_completed (now : String) (rs : RecState) (s : IGameState) :
    (roundStep now rs s).completed = rs.completed := by
  unfold roundStep
  repeat' first | split | dsimp only
  all_goals rfl

theorem roundStep_players (now : String) (rs : RecState) (s : IGameState) :
    (roundStep now rs s).players = rs.players := by
  unfold roundStep
  repeat' first | split | dsimp only
  all_goals rfl

theorem roundStep_roundNumber_ge (now : String) (rs : RecState)
    (s : IGameState) : rs.roundNumber ≤ (roundStep now rs s).roundNumber := by
  unfold roundStep
  repeat' first | split | dsimp only
  all_goals simp
  all_goals omega

theorem detectRound_completed (now : String) (rs : RecState)
    (s : IGameState) : (detectRound now rs s).completed = rs.completed := by
  unfold detectRound
  exact roundStep_completed now rs s

theorem detectRound_players (now : String) (rs : RecState)
    (s : IGameState) : (detectRound now rs s).players = rs.players := by
  unfold detectRound
  exact roundStep_players now rs s

theorem detectRound_roundNumber_ge (now : String) (rs : RecState)
    (s : IGameState) :
    rs.roundNumber ≤ (detectRound now rs s).roundNumber := by
  unfold detectRound
  exact roundStep_roundNumber_ge now rs s

theorem roundStep_of_trigger (now : String) (rs : RecState) (s : IGameState)
    (h1 : s.phase = .action) (h2 : rs.prevPhase ≠ some .action)
    (h3 : rs.players.isSome) : 1 ≤ (roundStep now rs s).roundNumber := by
  unfold roundStep
  rw [if_pos ⟨h1, h2, h3⟩]
  repeat' first | split | dsimp only
  all_goals simp
  all_goals omega

theorem roundStep_no_trigger_snapshots (now : String) (rs : RecState)
    (s : IGameState)
    (h : ¬(s.phase = .action ∧ rs.prevPhase ≠ some .action ∧
      rs.players.isSome = true)) :
    (roundStep now rs s).snapshots = rs.snapshots := by
  unfold roundStep
  rw [if_neg h]
  repeat' first | split | dsimp only
  all_goals rfl

theorem roundStep_no_trigger_roundNumber (now : String) (rs : RecState)
    (s : IGameState)
    (h : ¬(s.phase = .action ∧ rs.prevPhase ≠ some .action ∧
      rs.players.isSome = true)) :
    (roundStep now rs s).roundNumber = rs.roundNumber := by
  unfold roundStep
  rw [if_neg h]
  repeat' first | split | dsimp only
  all_goals rfl

theorem runDiff_completed (rs : RecState) (s : IGameState) :
    (runDiff rs s).completed = rs.completed := by
  unfold runDiff
  split <;> rfl

theorem runDiff_players (rs : RecState) (s : IGameState) :
    (runDiff rs s).players = rs.players := by
  unfold runDiff
  split <;> rfl

theorem runDiff_roundNumber (rs : RecState) (s : IGameState) :
    (runDiff rs s).roundNumber = rs.roundNumber := by
  unfold runDiff
  split <;> rfl

theorem runDiff_snapshots (rs : RecState) (s : IGameState) :
    (runDiff rs s).snapshots = rs.snapshots := by
  unfold runDiff
  split <;> rfl

/-- `ingest` on a live, id-matching recorder is the five-step pipeline
followed by the completion check. -/
theorem ingest_eq (plog : String → Nat → List IChatEntry → List CardEvent)
    (now : String) (rs : RecState) (s : IGameState)
    (hc : rs.completed = false) (hid : s.id = rs.gameId) :
    ingest plog now rs s =
      (let rs5 := runDiff (detectRound now
        (accumulateLogs plog (capturePair (resolveLocal rs s) s) s) s) s
       if s.winners ≠ [] then
         match rs5.players with
         | some pr =>
           (true, (finalizeRec now rs5 s pr).1,
             some (finalizeRec now rs5 s pr).2)
         | none => (false, rs5, none)
       else (false, rs5, none)) := by
  unfold ingest
  rw [hc]
  rw [if_neg (by simp)]
  rw [if_neg (by simp [hid])]

theorem finalizeRec_players (now : String) (rs : RecState) (s : IGameState)
    (pr : GamePlayer × GamePlayer) :
    (finalizeRec now rs s pr).1.players = rs.players := rfl

theorem finalizeRec_completed (now : String) (rs : RecState) (s : IGameState)
    (pr : GamePlayer × GamePlayer) :
    (finalizeRec now rs s pr).1.completed = true := rfl

theorem finalizeRec_roundNumber (now : String) (rs : RecState)
    (s : IGameState) (pr : GamePlayer × GamePlayer) :
    (finalizeRec now rs s pr).1.roundNumber = rs.roundNumber := rfl

theorem finalizeRec_winner (now : String) (rs : RecState) (s : IGameState)
    (pr : GamePlayer × GamePlayer) :
    (finalizeRec now rs s pr).2.winner =
      (match s.winners with | [w] => some w | _ => none) := rfl

theorem finalizeRec_rounds (now : String) (rs : RecState) (s : IGameState)
    (pr : GamePlayer × GamePlayer) :
    (finalizeRec now rs s pr).2.rounds = rs.roundNumber := rfl

theorem finalizeRec_snapshots_of_nil (now : String) (rs : RecState)
    (s : IGameState) (pr : GamePlayer × GamePlayer)
    (h : rs.snapshots = []) : (finalizeRec now rs s pr).2.snapshots = [] := by
  unfold finalizeRec
  dsimp only
  rw [if_neg (by simp [h])]
  exact h

/-! ## Claim theorems: recorder state machine -/

/-- C4: a finalized recorder never re-fires — any further ingest call (any
snapshot, any game id) returns true, changes nothing, and invokes no
completion callback, and the same holds over any whole snapshot sequence. -/
theorem c4_finalized_ingest_noop
    (plog : String → Nat → List IChatEntry → List CardEvent) (now : String)
    (rs : RecState) (s : IGameState) (ss : List IGameState)
    (hc : rs.completed = true) :
    ingest plog now rs s = (true, rs, none) ∧
    ingestList plog now rs ss = (rs, []) := by
  have h1 : ∀ s2, ingest plog now rs s2 = (true, rs, none) := by
    intro s2
    unfold ingest
    rw [hc]
    simp
  refine ⟨h1 s, ?_⟩
  induction ss with
  | nil => rfl
  | cons s2 ss2 ih =>
    unfold ingestList
    rw [h1 s2]
    dsimp only
    rw [ih]
    rfl

/-- C5 (amended): on a live id-matching recorder, AND provided the call
does not hit the unguarded `ps.cardPiles.resources` read in
`captureSnapshot` (the `ingestThrows … = false` hypothesis, which confines
the statement to the inputs on which the total `ingest` is faithful — the
counterexample shows a pair-known, winners-bearing snapshot on which the
real method throws instead of finalizing): the call finalizes and returns
true exactly when the snapshot's winners list is non-empty and the
(possibly just-captured) player pair is known; the emitted record's winner
is the sole winners entry when there is exactly one, and null (a draw)
otherwise. -/
theorem c5_finalize_iff_winners_amended
    (plog : String → Nat → List IChatEntry → List CardEvent) (now : String)
    (rs : RecState) (s : IGameState)
    (hc : rs.completed = false) (hid : s.id = rs.gameId)
    (hok : ingestThrows rs s = false) :
    ((ingest plog now rs s).1 = true ↔
      (s.winners ≠ [] ∧
        ((ingest plog now rs s).2.1.players).isSome = true)) ∧
    (ingest plog now rs s).2.1.completed = (ingest plog now rs s).1 ∧
    ((ingest plog now rs s).1 = true →
      ((ingest plog now rs s).2.2).map GameRecord.winner =
        some (match s.winners with | [w] => some w | _ => none)) ∧
    ((ingest plog now rs s).1 = false → (ingest plog now rs s).2.2 = none) := by
  rw [ingest_eq plog now rs s hc hid]
  dsimp only
  have h5c : (runDiff (detectRound now
      (accumulateLogs plog (capturePair (resolveLocal rs s) s) s) s)
        s).completed = false := by
    rw [runDiff_completed, detectRound_completed, accumulateLogs_completed,
      capturePair_completed, resolveLocal_completed, hc]
  by_cases hw : s.winners ≠ []
  · rw [if_pos hw]
    cases hps : (runDiff (detectRound now
        (accumulateLogs plog (capturePair (resolveLocal rs s) s) s) s)
          s).players with
    | some pr =>
      dsimp only
      refine ⟨?_, ?_, ?_, ?_⟩
      · rw [finalizeRec_players, hps]
        simp [hw]
      · rw [finalizeRec_completed]
      · intro _
        rw [Option.map_some', finalizeRec_winner]
      · intro h
        cases h
    | none =>
      dsimp only
      refine ⟨?_, ?_, ?_, ?_⟩
      · rw [hps]
        simp
      · rw [h5c]
      · intro h
        cases h
      · intro _
        rfl
  · rw [if_neg hw]
    dsimp only
    refine ⟨?_, ?_, ?_, ?_⟩
    · simp only [false_iff, Bool.false_eq_true]
      intro hcon
      exact hw hcon.1
    · rw [h5c]
    · intro h
      cases h
    · intro _
      rfl

theorem detectRound_snapshots (now : String) (rs : RecState)
    (s : IGameState) :
    (detectRound now rs s).snapshots = (roundStep now rs s).snapshots := rfl

theorem detectRound_roundNumber (now : String) (rs : RecState)
    (s : IGameState) :
    (detectRound now rs s).roundNumber = (roundStep now rs s).roundNumber :=
  rfl

/-- C6 (amended): the recorder's round number never decreases — per call
and over any ingested sequence — and it is at least one from the first
action-phase transition observed with a known player pair onward (an
action-phase snapshot seen before the pair is known does not start round
one; see the counterexample). -/
theorem c6_round_monotone_amended
    (plog : String → Nat → List IChatEntry → List CardEvent) (now : String)
    (rs : RecState) (s : IGameState) :
    rs.roundNumber ≤ (ingest plog now rs s).2.1.roundNumber ∧
    (∀ l, rs.roundNumber ≤ (ingestList plog now rs l).1.roundNumber) ∧
    (1 ≤ rs.roundNumber → 1 ≤ (ingest plog now rs s).2.1.roundNumber) ∧
    (rs.completed = false → s.id = rs.gameId → s.phase = .action →
      rs.prevPhase ≠ some .action →
      ((ingest plog now rs s).2.1.players).isSome = true →
      1 ≤ (ingest plog now rs s).2.1.roundNumber) := by
  have hmono : ∀ (rs2 : RecState) (s2 : IGameState),
      rs2.roundNumber ≤ (ingest plog now rs2 s2).2.1.roundNumber := by
    intro rs2 s2
    unfold ingest
    split
    · exact le_refl _
    split
    · exact le_refl _
    dsimp only
    have e1 : (accumulateLogs plog (capturePair (resolveLocal rs2 s2) s2)
        s2).roundNumber = rs2.roundNumber := by
      rw [accumulateLogs_roundNumber, capturePair_roundNumber,
        resolveLocal_roundNumber]
    have hchain : rs2.roundNumber ≤ (runDiff (detectRound now
        (accumulateLogs plog (capturePair (resolveLocal rs2 s2) s2) s2) s2)
          s2).roundNumber := by
      rw [runDiff_roundNumber]
      have h2 := detectRound_roundNumber_ge now
        (accumulateLogs plog (capturePair (resolveLocal rs2 s2) s2) s2) s2
      rw [e1] at h2
      exact h2
    split
    · split
      · next pr _ =>
        rw [finalizeRec_roundNumber]
        exact hchain
      · exact hchain
    · exact hchain
  refine ⟨hmono rs s, ?_, ?_, ?_⟩
  · have haux : ∀ (l : List IGameState) (rs2 : RecState),
        rs2.roundNumber ≤ (ingestList plog now rs2 l).1.roundNumber := by
      intro l
      induction l with
      | nil => intro rs2; exact le_refl _
      | cons s2 ss ih =>
        intro rs2
        unfold ingestList
        dsimp only
        exact le_trans (hmono rs2 s2) (ih (ingest plog now rs2 s2).2.1)
    exact fun l => haux l rs
  · intro h1
    exact le_trans h1 (hmono rs s)
  · intro hc hid hph hprev hsome
    rw [ingest_eq plog now rs s hc hid] at hsome ⊢
    dsimp only at hsome ⊢
    have hpl : (runDiff (detectRound now
        (accumulateLogs plog (capturePair (resolveLocal rs s) s) s) s)
          s).players =
        (capturePair (resolveLocal rs s) s).players := by
      rw [runDiff_players, detectRound_players, accumulateLogs_players]
    have hprev3 : (accumulateLogs plog (capturePair (resolveLocal rs s) s)
        s).prevPhase = rs.prevPhase := by
      rw [accumulateLogs_prevPhase, capturePair_prevPhase,
        resolveLocal_prevPhase]
    have hpl3 : (accumulateLogs plog (capturePair (resolveLocal rs s) s)
        s).players = (capturePair (resolveLocal rs s) s).players := by
      rw [accumulateLogs_players]
    have hpostpl : ((runDiff (detectRound now
        (accumulateLogs plog (capturePair (resolveLocal rs s) s) s) s)
          s).players).isSome = true := by
      by_cases hw : s.winners ≠ []
      · rw [if_pos hw] at hsome
        rcases hps : (runDiff (detectRound now
            (accumulateLogs plog (capturePair (resolveLocal rs s) s) s) s)
              s).players with _ | pr
        · rw [hps] at hsome
          dsimp only at hsome
          rw [hps] at hsome
          simp at hsome
        · rfl
      · rw [if_neg hw] at hsome
        exact hsome
    have h1le : 1 ≤ (runDiff (detectRound now
        (accumulateLogs plog (capturePair (resolveLocal rs s) s) s) s)
          s).roundNumber := by
      rw [runDiff_roundNumber, detectRound_roundNumber]
      apply roundStep_of_trigger
      · exact hph
      · rw [hprev3]
        exact hprev
      · rw [hpl3, ← hpl]
        exact hpostpl
    split
    · split
      · next pr _ =>
        rw [finalizeRec_roundNumber]
        exact h1le
      · exact h1le
    · exact h1le

/-- C3 (amended): on a live id-matching recorder with no captured player
pair, a snapshot with fewer than two player keys leaves the pair
uncaptured, captures no round snapshot, and makes ingest return false.
(Local-player resolution does not gate pair capture or differencing: the
counterexample shows a pair being captured via the first-key fallback and
diff events being appended while the local player is still unresolved.) -/
theorem c3_awaiting_players_amended
    (plog : String → Nat → List IChatEntry → List CardEvent) (now : String)
    (rs : RecState) (s : IGameState)
    (hc : rs.completed = false) (hid : s.id = rs.gameId)
    (hp : rs.players = none) (hk : s.players.length < 2) :
    (ingest plog now rs s).2.1.players = none ∧
    (ingest plog now rs s).2.1.snapshots = rs.snapshots ∧
    (ingest plog now rs s).1 = false := by
  rw [ingest_eq plog now rs s hc hid]
  dsimp only
  have hcap : (capturePair (resolveLocal rs s) s).players = none :=
    capturePair_players_none_of_short (resolveLocal rs s) s
      (by rw [resolveLocal_players]; exact hp) hk
  have hpl5 : (runDiff (detectRound now
      (accumulateLogs plog (capturePair (resolveLocal rs s) s) s) s)
        s).players = none := by
    rw [runDiff_players, detectRound_players, accumulateLogs_players, hcap]
  have hsnap5 : (runDiff (detectRound now
      (accumulateLogs plog (capturePair (resolveLocal rs s) s) s) s)
        s).snapshots = rs.snapshots := by
    rw [runDiff_snapshots, detectRound_snapshots,
      roundStep_no_trigger_snapshots _ _ _ (by
        rintro ⟨_, _, hsome⟩
        rw [accumulateLogs_players, hcap] at hsome
        cases hsome),
      accumulateLogs_snapshots, capturePair_snapshots, resolveLocal_snapshots]
  by_cases hw : s.winners ≠ []
  · rw [if_pos hw, hpl5]
    dsimp only
    exact ⟨hpl5, hsnap5, rfl⟩
  · rw [if_neg hw]
    dsimp only
    exact ⟨hpl5, hsnap5, rfl⟩

/-- C10: a winners-bearing snapshot on a live recorder with a known pair
but round zero and no captured round snapshots — arriving without a
transition into the action phase — still finalizes, and the emitted record
has zero rounds and an empty snapshots list. -/
theorem c10_finalize_before_first_round
    (plog : String → Nat → List IChatEntry → List CardEvent) (now : String)
    (rs : RecState) (s : IGameState) (pr : GamePlayer × GamePlayer)
    (hc : rs.completed = false) (hid : s.id = rs.gameId)
    (hp : rs.players = some pr) (hr : rs.roundNumber = 0)
    (hs : rs.snapshots = []) (hw : s.winners ≠ [])
    (hph : ¬(s.phase = PhaseName.action ∧
      rs.prevPhase ≠ some PhaseName.action)) :
    (ingest plog now rs s).1 = true ∧
    ((ingest plog now rs s).2.2).map GameRecord.rounds = some 0 ∧
    ((ingest plog now rs s).2.2).map GameRecord.snapshots = some [] := by
  rw [ingest_eq plog now rs s hc hid]
  dsimp only
  have hcap : (capturePair (resolveLocal rs s) s).players = some pr :=
    capturePair_players_some (resolveLocal rs s) s pr
      (by rw [resolveLocal_players]; exact hp)
  have hpl5 : (runDiff (detectRound now
      (accumulateLogs plog (capturePair (resolveLocal rs s) s) s) s)
        s).players = some pr := by
    rw [runDiff_players, detectRound_players, accumulateLogs_players, hcap]
  have hnotrig : ¬(s.phase = PhaseName.action ∧
      (accumulateLogs plog (capturePair (resolveLocal rs s) s)
        s).prevPhase ≠ some PhaseName.action ∧
      ((accumulateLogs plog (capturePair (resolveLocal rs s) s)
        s).players).isSome = true) := by
    rintro ⟨h1, h2, _⟩
    rw [accumulateLogs_prevPhase, capturePair_prevPhase,
      resolveLocal_prevPhase] at h2
    exact hph ⟨h1, h2⟩
  have hr5 : (runDiff (detectRound now
      (accumulateLogs plog (capturePair (resolveLocal rs s) s) s) s)
        s).roundNumber = 0 := by
    rw [runDiff_roundNumber, detectRound_roundNumber,
      roundStep_no_trigger_roundNumber _ _ _ hnotrig,
      accumulateLogs_roundNumber, capturePair_roundNumber,
      resolveLocal_roundNumber, hr]
  have hs5 : (runDiff (detectRound now
      (accumulateLogs plog (capturePair (resolveLocal rs s) s) s) s)
        s).snapshots = [] := by
    rw [runDiff_snapshots, detectRound_snapshots,
      roundStep_no_trigger_snapshots _ _ _ hnotrig,
      accumulateLogs_snapshots, capturePair_snapshots,
      resolveLocal_snapshots, hs]
  rw [if_pos hw, hpl5]
  dsimp only
  refine ⟨rfl, ?_, ?_⟩
  · rw [Option.map_some', finalizeRec_rounds, hr5]
  · rw [Option.map_some', finalizeRec_snapshots_of_nil _ _ _ _ hs5]

/-! ## Concrete recorder runs: counterexamples and witnesses -/

/-- A log parser that recovers no events, for concrete recorder runs. -/
def plogNone : String → Nat → List IChatEntry → List CardEvent :=
  fun _ _ _ => []

/-- Minimal player summaries (with empty card piles, so no concrete run
below reaches the unguarded pile read; see `ingestThrows`). -/
def psAlice : PlayerStateSummary :=
  { id := "pA", name := "Alice", cardPiles := some {} }

def psBob : PlayerStateSummary :=
  { id := "pB", name := "Bob", cardPiles := some {} }

/-- Alice with empty piles and 40 (resp. 39) cards in deck. -/
def psA40 : PlayerStateSummary :=
  { id := "pA", name := "Alice", cardPiles := some {},
    numCardsInDeck := some 40 }

def psA39 : PlayerStateSummary :=
  { id := "pA", name := "Alice", cardPiles := some {},
    numCardsInDeck := some 39 }

/-- An already-finalized recorder. -/
def recDone : RecState := { gameId := "g", startedAt := "t0",
                            completed := true }

/-- An arbitrary snapshot (different game id does not matter once
finalized). -/
def snapAny : IGameState := { id := "h", players := [], phase := .setup }

/-- C4 witness: the first further call and a whole further sequence on the
finalized recorder are no-ops returning true. -/
theorem c4_witness :
    ingest plogNone "t1" recDone snapAny = (true, recDone, none) ∧
    ingestList plogNone "t1" recDone [snapAny] = (recDone, []) :=
  c4_finalized_ingest_noop plogNone "t1" recDone snapAny [snapAny] rfl

/-- A freshly constructed recorder for game "g". -/
def recFresh : RecState := initRecState "g" "t0"

/-- A two-player snapshot of game "g" carrying the winner Alice. -/
def snapWin : IGameState :=
  { id := "g", players := [("pA", psAlice), ("pB", psBob)],
    phase := .setup, winners := ["Alice"] }

/-- C5 witness: on the fresh recorder and the Alice-wins snapshot (a
setup-phase snapshot, so the round trigger never fires and the call cannot
throw) the finalize-iff-winners characterization holds. -/
theorem c5_witness :
    ((ingest plogNone "t1" recFresh snapWin).1 = true ↔
      (snapWin.winners ≠ [] ∧
        ((ingest plogNone "t1" recFresh snapWin).2.1.players).isSome =
          true)) ∧
    (ingest plogNone "t1" recFresh snapWin).2.1.completed =
      (ingest plogNone "t1" recFresh snapWin).1 ∧
    ((ingest plogNone "t1" recFresh snapWin).1 = true →
      ((ingest plogNone "t1" recFresh snapWin).2.2).map GameRecord.winner =
        some (match snapWin.winners with | [w] => some w | _ => none)) ∧
    ((ingest plogNone "t1" recFresh snapWin).1 = false →
      (ingest plogNone "t1" recFresh snapWin).2.2 = none) :=
  c5_finalize_iff_winners_amended plogNone "t1" recFresh snapWin rfl rfl
    (by decide)

/-- A winnerless action-phase snapshot with both player keys present. -/
def snapAct : IGameState :=
  { id := "g", players := [("pA", psAlice), ("pB", psBob)],
    phase := .action }

/-- C6 witness: a fresh recorder fed the two-player action-phase snapshot
reaches round at least one. -/
theorem c6_witness :
    1 ≤ (ingest plogNone "t1" recFresh snapAct).2.1.roundNumber :=
  (c6_round_monotone_amended plogNone "t1" recFresh snapAct).2.2.2
    rfl rfl rfl (by decide) (by decide)

/-- An action-phase snapshot with only one player key present. -/
def snapAct1 : IGameState :=
  { id := "g", players := [("pA", psAlice)], phase := .action }

/-- C6 counterexample: an action-phase snapshot processed before the
player pair is known (here: only one player key present) leaves the round
number at zero, so "never less than 1 once the first action-phase snapshot
is processed" fails as stated. -/
theorem c6_counterexample :
    snapAct1.phase = PhaseName.action ∧
    recFresh.roundNumber = 0 ∧
    (ingest plogNone "t1" recFresh snapAct1).2.1.roundNumber = 0 := by
  decide

/-- C3 witness: the fresh recorder on the one-player action snapshot
captures no pair, captures no round snapshot, and returns false. -/
theorem c3_witness :
    (ingest plogNone "t1" recFresh snapAct1).2.1.players = none ∧
    (ingest plogNone "t1" recFresh snapAct1).2.1.snapshots =
      recFresh.snapshots ∧
    (ingest plogNone "t1" recFresh snapAct1).1 = false :=
  c3_awaiting_players_amended plogNone "t1" recFresh snapAct1
    rfl rfl rfl (by decide)

/-- The previous snapshot behind the C3 counterexample: Alice alone with
40 cards in deck. -/
def snap3prev : IGameState :=
  { id := "g", players := [("pA", psA40)], phase := .setup }

/-- The next snapshot: both player keys (each carrying card piles, so the
round snapshot is captured without reaching the unguarded pile read),
Alice down to 39 cards. -/
def snap3 : IGameState :=
  { id := "g", players := [("pA", psA39), ("pB", psBob)],
    phase := .action }

/-- A recorder that has seen `snap3prev` but whose local player is still
unresolved. -/
def rec3 : RecState :=
  { gameId := "g", startedAt := "t0", prevState := some snap3prev }

/-- C3 counterexample: with the local player still unresolved (before and
after the call), the pair IS captured via the first-key fallback, a diff
event IS appended, and a round snapshot IS captured — so local-player
resolution does not gate pair capture, differencing or round tracking.
The run is throw-free (`ingestThrows` is false: both looked-up players
carry card piles), so the total model traces the method exactly here. -/
theorem c3_counterexample :
    ingestThrows rec3 snap3 = false ∧
    rec3.localPlayerId = none ∧
    (ingest plogNone "t1" rec3 snap3).2.1.localPlayerId = none ∧
    ((ingest plogNone "t1" rec3 snap3).2.1.players).isSome = true ∧
    (ingest plogNone "t1" rec3 snap3).2.1.cardEvents.length = 1 ∧
    (ingest plogNone "t1" rec3 snap3).2.1.snapshots.length = 1 ∧
    (ingest plogNone "t1" rec3 snap3).1 = false := by
  decide

/-- The captured player pair used by the C10 run. -/
def prAB : GamePlayer × GamePlayer :=
  (buildPlayer "pA" psAlice, buildPlayer "pB" psBob)

/-- A recorder with the pair known but no action transition seen yet. -/
def rec10 : RecState :=
  { gameId := "g", startedAt := "t0", players := some prAB }

/-- A winners-bearing setup-phase snapshot of game "g". -/
def snap10 : IGameState :=
  { id := "g", players := [("pA", psAlice), ("pB", psBob)],
    phase := .setup, winners := ["Alice"] }

/-- C10 witness: the pair-known recorder finalizes on the setup-phase
winners snapshot with a zero-round, snapshotless record. -/
theorem c10_witness :
    (ingest plogNone "t1" rec10 snap10).1 = true ∧
    ((ingest plogNone "t1" rec10 snap10).2.2).map GameRecord.rounds =
      some 0 ∧
    ((ingest plogNone "t1" rec10 snap10).2.2).map GameRecord.snapshots =
      some [] :=
  c10_finalize_before_first_round plogNone "t1" rec10 snap10 prAB
    rfl rfl rfl rfl rfl (by decide) (by decide)

/-- Alice's player state with `cardPiles` absent. -/
def psA0 : PlayerStateSummary := { id := "pA", name := "Alice" }

/-- A live recorder with the pair already known and no action phase seen. -/
def rec5x : RecState :=
  { gameId := "g", startedAt := "t0", players := some prAB }

/-- An action-phase, winners-bearing snapshot whose "pA" entry lacks
`cardPiles`. -/
def snap5x : IGameState :=
  { id := "g", players := [("pA", psA0), ("pB", psBob)],
    phase := .action, winners := ["Alice"] }

/-- C5 counterexample: a live, id-matching, winners-bearing snapshot with
the pair known that transitions into the action phase while a looked-up
player lacks `cardPiles`.  The unconditional claim's right-hand side holds
(winners non-empty, pair known) and the total model would finalize and
return true, but the real `ingest` throws the TypeError in
`captureSnapshot` (`ingestThrows` is true) before reaching the finalize
block, so the method neither finalizes nor returns — refuting the iff as
stated. -/
theorem c5_counterexample :
    rec5x.completed = false ∧
    snap5x.id = rec5x.gameId ∧
    snap5x.winners ≠ [] ∧
    ((ingest plogNone "t1" rec5x snap5x).2.1.players).isSome = true ∧
    (ingest plogNone "t1" rec5x snap5x).1 = true ∧
    ingestThrows rec5x snap5x = true := by
  decide
